import Mathlib

/-!
# Greedy timetable scheduler

A shallow embedding of `src/scheduler/greedyScheduler.js` (class `GreedyScheduler`)
and the properties of its assignment loop and of its transaction discipline.

* JavaScript numbers that hold database keys are `Nat`; `credits` and `capacity` are `Int`.
* A `Map<id, Set<string>>` is a function from ids to the list of keys held by the set.
  The source sets every faculty and room id to an empty set before the loop and only
  ever looks up ids of rows of those lists, so `Map.get` never yields `undefined`.
* `console.warn` appends the message to a list of warnings.
* `client.query` is a call into an abstract database client that may fail. The module
  `../db` and the database schema are not among the sources; the client interface and a
  transactional store with injected faults are modelled from the specification.
-/

namespace Scheduler

/-! ## Data model -/

/-- One entry of `this.timeSlots`. -/
structure TimeSlot where
  start : String
  end_ : String
  deriving DecidableEq, Repr

/-- The instance fields of the class. -/
structure GreedyScheduler where
  timeSlots : List TimeSlot
  daysOfWeek : List Nat
  deriving DecidableEq, Repr

/-- The constructor of the class: eight one-hour slots, Monday to Friday. -/
def GreedyScheduler.constructor : GreedyScheduler :=
  { timeSlots :=
      [ { start := "09:00", end_ := "10:00" },
        { start := "10:00", end_ := "11:00" },
        { start := "11:00", end_ := "12:00" },
        { start := "12:00", end_ := "13:00" },
        { start := "14:00", end_ := "15:00" },
        { start := "15:00", end_ := "16:00" },
        { start := "16:00", end_ := "17:00" },
        { start := "17:00", end_ := "18:00" } ],
    daysOfWeek := [1, 2, 3, 4, 5] }

/-- A row of the courses query. -/
structure Course where
  id : Nat
  name : String
  department_id : Option Nat
  semester : String
  year : Int
  credits : Int
  deriving DecidableEq, Repr

/-- A row of the faculty query; `department_id` may be `null`. -/
structure Faculty where
  id : Nat
  department_id : Option Nat
  deriving DecidableEq, Repr

/-- A row of the rooms query. -/
structure Room where
  id : Nat
  capacity : Int
  deriving DecidableEq, Repr

/-- The object pushed onto `assignments`. -/
structure Assignment where
  timetableId : Nat
  courseId : Nat
  facultyId : Nat
  roomId : Nat
  dayOfWeek : Nat
  startTime : String
  endTime : String
  deriving DecidableEq, Repr

/-- The maps `facultySchedule` and `roomSchedule`: id ↦ set of slot keys. -/
abbrev Schedule := Nat → List String

/-- The schedules after the two `forEach` initialisations: every set is empty. -/
def Schedule.empty : Schedule := fun _ => []

/-- The test `schedule.get(id).has(slotKey)`. -/
def Schedule.has (s : Schedule) (id : Nat) (slotKey : String) : Bool :=
  (s id).contains slotKey

/-- The update `schedule.get(id).add(slotKey)`: a set keeps one copy of a key. -/
def Schedule.add (s : Schedule) (id : Nat) (slotKey : String) : Schedule :=
  Function.update s id (if (s id).contains slotKey then s id else s id ++ [slotKey])

/-- The template string that builds the key of a cell from the day and the slot start. -/
def slotKey (day : Nat) (start : String) : String :=
  toString day ++ "-" ++ start

/-- JavaScript `!x` for a nullable numeric column: true for `null` and for `0`. -/
def falsy : Option Nat → Bool
  | none => true
  | some 0 => true
  | some (_ + 1) => false

/-- The department test of the faculty filter:
`f.department_id === course.department_id || !f.department_id`. -/
def eligible (f : Faculty) (course : Course) : Bool :=
  f.department_id == course.department_id || falsy f.department_id

/-- The faculty filter at a cell. -/
def availableFaculty (faculty : List Faculty) (facultySchedule : Schedule) (course : Course)
    (key : String) : List Faculty :=
  faculty.filter fun f => !facultySchedule.has f.id key && eligible f course

/-- The room filter at a cell. -/
def availableRooms (rooms : List Room) (roomSchedule : Schedule) (key : String) : List Room :=
  rooms.filter fun r => !roomSchedule.has r.id key

/-- The mutable state of the assignment loop. -/
structure RunState where
  facultySchedule : Schedule
  roomSchedule : Schedule
  assignments : List Assignment
  warnings : List String

/-- State before the first course. -/
def RunState.init : RunState :=
  { facultySchedule := Schedule.empty, roomSchedule := Schedule.empty,
    assignments := [], warnings := [] }

/-- The object literal pushed onto `assignments`. -/
def newAssignment (timetableId : Nat) (course : Course) (day : Nat) (timeSlot : TimeSlot)
    (selectedFaculty : Faculty) (selectedRoom : Room) : Assignment :=
  { timetableId := timetableId, courseId := course.id,
    facultyId := selectedFaculty.id, roomId := selectedRoom.id,
    dayOfWeek := day, startTime := timeSlot.start, endTime := timeSlot.end_ }

/-- The body of the innermost loop once both filters are non-empty: record and push. -/
def place (timetableId : Nat) (course : Course) (day : Nat) (timeSlot : TimeSlot)
    (selectedFaculty : Faculty) (selectedRoom : Room) (st : RunState) : RunState :=
  { facultySchedule := st.facultySchedule.add selectedFaculty.id (slotKey day timeSlot.start),
    roomSchedule := st.roomSchedule.add selectedRoom.id (slotKey day timeSlot.start),
    assignments := st.assignments ++
      [newAssignment timetableId course day timeSlot selectedFaculty selectedRoom],
    warnings := st.warnings }

/-- The loop `for (const timeSlot of this.timeSlots)` for one day. `some` is returned
exactly when the source sets `assigned = true` (every later iteration of both loops
then breaks at once); `none` when the slots are exhausted with `assigned` still false. -/
def scanSlots (timetableId : Nat) (faculty : List Faculty) (rooms : List Room)
    (course : Course) (day : Nat) (st : RunState) : List TimeSlot → Option RunState
  | [] => none
  | timeSlot :: rest =>
    match availableFaculty faculty st.facultySchedule course (slotKey day timeSlot.start) with
    | [] => scanSlots timetableId faculty rooms course day st rest
    | selectedFaculty :: _ =>
      match availableRooms rooms st.roomSchedule (slotKey day timeSlot.start) with
      | [] => scanSlots timetableId faculty rooms course day st rest
      | selectedRoom :: _ =>
        some (place timetableId course day timeSlot selectedFaculty selectedRoom st)

/-- The loop `for (const day of this.daysOfWeek)`. -/
def scanDays (g : GreedyScheduler) (timetableId : Nat) (faculty : List Faculty)
    (rooms : List Room) (course : Course) (st : RunState) : List Nat → Option RunState
  | [] => none
  | day :: rest =>
    match scanSlots timetableId faculty rooms course day st g.timeSlots with
    | some st' => some st'
    | none => scanDays g timetableId faculty rooms course st rest

/-- The text passed to `console.warn`. -/
def warningFor (course : Course) : String :=
  "Could not schedule all credits for course " ++ course.name

/-- The loop `while (scheduledCredits < creditsToSchedule)`; returns the final value of
`scheduledCredits` and the state. -/
def whileLoop (g : GreedyScheduler) (timetableId : Nat) (faculty : List Faculty)
    (rooms : List Room) (course : Course) (scheduledCredits : Int) (st : RunState) :
    Int × RunState :=
  if scheduledCredits < course.credits then
    match scanDays g timetableId faculty rooms course st g.daysOfWeek with
    | some st' => whileLoop g timetableId faculty rooms course (scheduledCredits + 1) st'
    | none => (scheduledCredits, { st with warnings := st.warnings ++ [warningFor course] })
  else (scheduledCredits, st)
termination_by (course.credits - scheduledCredits).toNat
decreasing_by omega

/-- The same loop with a bound on the number of iterations of its body: `none` when the
bound is reached with the loop condition still true. -/
def whileLoopFuel (g : GreedyScheduler) (timetableId : Nat) (faculty : List Faculty)
    (rooms : List Room) (course : Course) :
    Nat → Int → RunState → Option (Int × RunState)
  | fuel, scheduledCredits, st =>
    if scheduledCredits < course.credits then
      match fuel with
      | 0 => none
      | fuel + 1 =>
        match scanDays g timetableId faculty rooms course st g.daysOfWeek with
        | some st' => whileLoopFuel g timetableId faculty rooms course fuel (scheduledCredits + 1) st'
        | none =>
          some (scheduledCredits, { st with warnings := st.warnings ++ [warningFor course] })
    else some (scheduledCredits, st)

/-- One iteration of `for (const course of courses)`. -/
def scheduleCourse (g : GreedyScheduler) (timetableId : Nat) (faculty : List Faculty)
    (rooms : List Room) (st : RunState) (course : Course) : RunState :=
  (whileLoop g timetableId faculty rooms course 0 st).2

/-- The assignment loop `for (const course of courses)` from a given state. -/
def forCourses (g : GreedyScheduler) (timetableId : Nat) (faculty : List Faculty)
    (rooms : List Room) (st : RunState) (courses : List Course) : RunState :=
  courses.foldl (scheduleCourse g timetableId faculty rooms) st

/-- The assignment loop of `generateTimetable`, from the freshly initialised schedules. -/
def assignLoop (g : GreedyScheduler) (timetableId : Nat) (courses : List Course)
    (faculty : List Faculty) (rooms : List Room) : RunState :=
  forCourses g timetableId faculty rooms RunState.init courses

/-- The assignment loop with every `while` loop bounded by `fuel` iterations; `none` when
some course needs more. -/
def assignLoopFuel (fuel : Nat) (g : GreedyScheduler) (timetableId : Nat)
    (courses : List Course) (faculty : List Faculty) (rooms : List Room) : Option RunState :=
  courses.foldl
    (fun acc course => acc.bind fun st =>
      (whileLoopFuel g timetableId faculty rooms course fuel 0 st).map fun out => out.2)
    (some RunState.init)

/-! ## Database client and `generateTimetable` -/

/-- The statements passed to `client.query`, with their parameters. -/
inductive Stmt where
  | begin
  | insertTimetable (name : String) (semester : String) (year : Int) (is_active : Bool)
  | deactivateOthers (semester : String) (year : Int) (timetableId : Nat)
  | selectCourses (semester : String) (year : Int)
  | selectFaculty
  | selectRooms
  | insertSlot (a : Assignment)
  | commit
  | rollback
  deriving DecidableEq, Repr

/-- What the method reads from the result of a successful statement: `rows[0].id` of
the insert with `RETURNING id`, `rows` of the three selects, nothing otherwise. -/
def Stmt.Rows : Stmt → Type
  | .insertTimetable _ _ _ _ => Nat
  | .selectCourses _ _ => List Course
  | .selectFaculty => List Faculty
  | .selectRooms => List Room
  | _ => Unit

/-- Modelled from the spec: the client handed out by `pool.connect()` of the module
`../db`, whose source is not at hand. A statement either resolves with its rows or rejects
with an error, and changes the connection state `σ` as it likes. -/
structure Client (σ : Type) where
  query : (s : Stmt) → σ → Except String s.Rows × σ

/-- The world the method acts on: the connection, the statements issued so far (each
with whether it resolved), and the console. -/
structure Exec (σ : Type) where
  store : σ
  log : List (Stmt × Bool)
  console : List String

/-- A step of the method: a result or a thrown error, and the world afterwards. -/
abbrev DbM (σ : Type) (α : Type) := Exec σ → Except String α × Exec σ

/-- Sequencing of `await`ed steps: a thrown error skips the rest. -/
def DbM.bind {σ α β : Type} (m : DbM σ α) (f : α → DbM σ β) : DbM σ β := fun e =>
  match m e with
  | (.ok a, e') => f a e'
  | (.error err, e') => (.error err, e')

/-- A step that returns without touching the world. -/
def DbM.pure {σ α : Type} (a : α) : DbM σ α := fun e => (.ok a, e)

instance {σ : Type} : Monad (DbM σ) where
  pure := DbM.pure
  bind := DbM.bind

/-- The call `await client.query(s)`, recorded in the log. -/
def query {σ : Type} (c : Client σ) (s : Stmt) : DbM σ s.Rows := fun e =>
  match c.query s e.store with
  | (.ok r, st) => (.ok r, { e with store := st, log := e.log ++ [(s, true)] })
  | (.error err, st) => (.error err, { e with store := st, log := e.log ++ [(s, false)] })

/-- The calls `console.warn` of the assignment loop. -/
def warnAll {σ : Type} (warnings : List String) : DbM σ Unit := fun e =>
  (.ok (), { e with console := e.console ++ warnings })

/-- The loop `for (const assignment of assignments)` of inserts. -/
def insertAll {σ : Type} (c : Client σ) : List Assignment → DbM σ Unit
  | [] => DbM.pure ()
  | a :: rest => DbM.bind (query c (.insertSlot a)) fun _ => insertAll c rest

/-- The value `generateTimetable` resolves with. -/
structure Result where
  timetableId : Nat
  assignmentsCount : Nat
  message : String
  deriving DecidableEq, Repr

/-- The `try` block of `generateTimetable`. The assignment loop runs between the loads
and the inserts; its warnings reach the console at that point. -/
def tryBlock {σ : Type} (c : Client σ) (g : GreedyScheduler) (semester : String) (year : Int)
    (timetableName : String) : DbM σ Result := do
  query c .begin
  let timetableId ← query c (.insertTimetable timetableName semester year true)
  query c (.deactivateOthers semester year timetableId)
  let courses ← query c (.selectCourses semester year)
  let faculty ← query c .selectFaculty
  let rooms ← query c .selectRooms
  let st := assignLoop g timetableId courses faculty rooms
  warnAll st.warnings
  insertAll c st.assignments
  query c .commit
  pure { timetableId := timetableId,
         assignmentsCount := st.assignments.length,
         message := "Generated timetable with " ++ toString st.assignments.length ++ " slots" }

/-- The method `generateTimetable` after `pool.connect()`: the `try` block, and in `catch`
the awaited `ROLLBACK` followed by `throw error` (a `ROLLBACK` that rejects throws its own
error instead). `client.release()` in `finally` does not touch the database. -/
def generateTimetable {σ : Type} (c : Client σ) (g : GreedyScheduler) (semester : String)
    (year : Int) (timetableName : String) : DbM σ Result := fun e =>
  match tryBlock c g semester year timetableName e with
  | (.ok r, e') => (.ok r, e')
  | (.error error, e') =>
    match query c .rollback e' with
    | (.ok _, e'') => (.error error, e'')
    | (.error error', e'') => (.error error', e'')

/-! ## A transactional store -/

/-- Modelled from the spec: a Timetable record (id, name, semester, year, isActive); the
schema is not at hand, `id` is taken to be the primary key behind `RETURNING id`. -/
structure TimetableRow where
  id : Nat
  name : String
  semester : String
  year : Int
  is_active : Bool
  deriving DecidableEq, Repr

/-- Modelled from the spec: the tables the statements of the method name. -/
structure Tables where
  timetables : List TimetableRow
  timetable_slots : List Assignment
  courses : List Course
  faculty : List Faculty
  rooms : List Room
  deriving DecidableEq, Repr

/-- Modelled from the spec: the transaction status of a connection of the transactional
store. -/
inductive Txn where
  | idle
  | active (working : Tables)
  | aborted
  deriving DecidableEq, Repr

/-- Modelled from the spec: the transactional store behind the client ("all writes are
staged and either fully committed or fully discarded"): committed tables, the transaction
of the connection, the sequence behind `timetables.id`, and an arbitrary schedule of
external faults (the `n`-th statement received fails when `fault n`). -/
structure Store where
  committed : Tables
  txn : Txn
  nextId : Nat
  issued : Nat
  fault : Nat → Bool

/-- Modelled from the spec: the effect of each SQL statement of the method on the tables,
read off the statement text. The insert into `timetables` takes its id from the sequence
and violates the primary key when that id is taken; the join with `departments` keeps the
courses that have a department. -/
def Tables.apply (t : Tables) (nextId : Nat) : (s : Stmt) → Except String (s.Rows × Tables)
  | .insertTimetable name semester year is_active =>
    if t.timetables.any (fun r => r.id == nextId) then
      .error "duplicate key value violates unique constraint"
    else
      .ok (nextId, { t with timetables := t.timetables ++
        [{ id := nextId, name := name, semester := semester, year := year,
           is_active := is_active }] })
  | .deactivateOthers semester year timetableId =>
    .ok ((), { t with timetables := t.timetables.map fun r =>
      if r.semester = semester ∧ r.year = year ∧ r.id ≠ timetableId then
        { r with is_active := false } else r })
  | .selectCourses semester year =>
    .ok (t.courses.filter (fun c =>
      c.semester == semester && c.year == year && c.department_id.isSome), t)
  | .selectFaculty => .ok (t.faculty, t)
  | .selectRooms => .ok (t.rooms.insertionSort (fun a b => a.capacity ≥ b.capacity), t)
  | .insertSlot a => .ok ((), { t with timetable_slots := t.timetable_slots ++ [a] })
  | .begin => .ok ((), t)
  | .commit => .ok ((), t)
  | .rollback => .ok ((), t)

/-- The sequence advances on every insert into `timetables`. -/
def Stmt.bump : Stmt → Nat
  | .insertTimetable _ _ _ _ => 1
  | _ => 0

/-- Modelled from the spec: a statement received by the transactional store. A fault, or
an error inside a transaction, aborts the transaction; an aborted transaction rejects
everything until it is ended; `COMMIT` makes the working tables the committed ones;
`ROLLBACK` drops them. -/
def Store.query (s : Stmt) (db : Store) : Except String s.Rows × Store :=
  let db1 : Store := { db with issued := db.issued + 1, nextId := db.nextId + s.bump }
  if db.fault db.issued then
    (.error "connection failure",
      { db1 with txn := match db.txn with
                        | .active _ => .aborted
                        | t => t })
  else
    match s, db.txn with
    | .begin, .idle => (.ok (), { db1 with txn := .active db.committed })
    | .begin, .active _ => (.ok (), db1)
    | .begin, .aborted => (.error "current transaction is aborted", db1)
    | .commit, .idle => (.ok (), db1)
    | .commit, .active w => (.ok (), { db1 with committed := w, txn := .idle })
    | .commit, .aborted => (.ok (), { db1 with txn := .idle })
    | .rollback, _ => (.ok (), { db1 with txn := .idle })
    | s, .idle =>
      match db.committed.apply db.nextId s with
      | .ok (r, t) => (.ok r, { db1 with committed := t })
      | .error err => (.error err, db1)
    | s, .active w =>
      match w.apply db.nextId s with
      | .ok (r, t) => (.ok r, { db1 with txn := .active t })
      | .error err => (.error err, { db1 with txn := .aborted })
    | _, .aborted => (.error "current transaction is aborted", db1)

/-- The store as a database client. -/
def storeClient : Client Store := { query := Store.query }

/-- A world around a store, with nothing logged yet. -/
def Exec.start (db : Store) : Exec Store := { store := db, log := [], console := [] }

/-! ## Sample inputs -/

/-- A course of the sample term. -/
def sampleCourse (id : Nat) (name : String) (department : Nat) (credits : Int) : Course :=
  { id := id, name := name, department_id := some department, semester := "Fall",
    year := 2024, credits := credits }

/-- Two one-credit courses of department 1. -/
def twoCourses : List Course := [sampleCourse 1 "Algebra" 1 1, sampleCourse 2 "Logic" 1 1]

/-- One teacher of department 1. -/
def oneTeacher : List Faculty := [{ id := 1, department_id := some 1 }]

/-- One room. -/
def oneRoom : List Room := [{ id := 1, capacity := 30 }]

/-- What the loop emits for `twoCourses`, `oneTeacher`, `oneRoom` under timetable 1. -/
def twoCoursesOutput : List Assignment :=
  [{ timetableId := 1, courseId := 1, facultyId := 1, roomId := 1, dayOfWeek := 1,
     startTime := "09:00", endTime := "10:00" },
   { timetableId := 1, courseId := 2, facultyId := 1, roomId := 1, dayOfWeek := 1,
     startTime := "10:00", endTime := "11:00" }]

/-- A teacher whose department id is the number 0. -/
def zeroDepartmentTeacher : List Faculty := [{ id := 1, department_id := some 0 }]

/-- One one-credit course of department 5. -/
def oneCourse : List Course := [sampleCourse 1 "Algebra" 5 1]

/-- Scenario A: a grid of two days and two slots. -/
def scenarioGrid : GreedyScheduler :=
  { timeSlots := [{ start := "09:00", end_ := "10:00" }, { start := "10:00", end_ := "11:00" }],
    daysOfWeek := [1, 2] }

/-- Scenario A: one course of department 7 with three credits. -/
def scenarioCourse : Course := sampleCourse 1 "Algebra" 7 3

/-- Scenario A: five faculty rows, all of department 7. -/
def scenarioFaculty : List Faculty :=
  [{ id := 1, department_id := some 7 }, { id := 2, department_id := some 7 },
   { id := 3, department_id := some 7 }, { id := 4, department_id := some 7 },
   { id := 5, department_id := some 7 }]

/-- Scenario A: three rooms of distinct capacities, largest first. -/
def scenarioRooms : List Room :=
  [{ id := 1, capacity := 90 }, { id := 2, capacity := 60 }, { id := 3, capacity := 30 }]

/-- Scenario A: what the loop emits. All three assignments sit in the first cell. -/
def scenarioOutput : List Assignment :=
  [{ timetableId := 1, courseId := 1, facultyId := 1, roomId := 1, dayOfWeek := 1,
     startTime := "09:00", endTime := "10:00" },
   { timetableId := 1, courseId := 1, facultyId := 2, roomId := 2, dayOfWeek := 1,
     startTime := "09:00", endTime := "10:00" },
   { timetableId := 1, courseId := 1, facultyId := 3, roomId := 3, dayOfWeek := 1,
     startTime := "09:00", endTime := "10:00" }]

/-- Tables of the sample term: one older active timetable, two courses, a teacher, a room. -/
def sampleTables : Tables :=
  { timetables := [{ id := 1, name := "Draft", semester := "Fall", year := 2024,
                     is_active := true }],
    timetable_slots := [],
    courses := twoCourses,
    faculty := oneTeacher,
    rooms := oneRoom }

/-- A store on the sample tables with no transaction open; statement number `k` (counted
from 0) fails when `k = failing`. -/
def sampleStore (failing : Nat) : Store :=
  { committed := sampleTables, txn := Txn.idle, nextId := 2, issued := 0,
    fault := fun n => n == failing }

/-- A store on the sample tables with no transaction open and no fault. -/
def healthyStore : Store :=
  { committed := sampleTables, txn := Txn.idle, nextId := 2, issued := 0,
    fault := fun _ => false }

/-- Tables in which the only course of the sample term is of department 5 and the only
teacher of department 1. -/
def shortTables : Tables :=
  { timetables := [], timetable_slots := [], courses := oneCourse, faculty := oneTeacher,
    rooms := oneRoom }

/-- A store on `shortTables` with no transaction open and no fault. -/
def shortStore : Store :=
  { committed := shortTables, txn := Txn.idle, nextId := 1, issued := 0,
    fault := fun _ => false }

/-! ## Vocabulary of the properties -/

/-- The cells of the grid in the order the two nested loops visit them: day-major. -/
def cells (g : GreedyScheduler) : List (Nat × TimeSlot) :=
  g.daysOfWeek.foldr (fun day acc => g.timeSlots.map (fun timeSlot => (day, timeSlot)) ++ acc) []

/-- The faculty id holds the key of some assignment of the list. -/
def facultyBusy (as : List Assignment) (id : Nat) (key : String) : Prop :=
  ∃ a ∈ as, a.facultyId = id ∧ slotKey a.dayOfWeek a.startTime = key

/-- The room id holds the key of some assignment of the list. -/
def roomBusy (as : List Assignment) (id : Nat) (key : String) : Prop :=
  ∃ a ∈ as, a.roomId = id ∧ slotKey a.dayOfWeek a.startTime = key

/-- Some eligible faculty and some room are both free at the key, for the given
schedules: the condition under which the innermost loop body makes an assignment. -/
def Feasible (faculty : List Faculty) (rooms : List Room) (course : Course)
    (facultySchedule roomSchedule : Schedule) (key : String) : Prop :=
  (∃ f ∈ faculty, eligible f course = true ∧ facultySchedule.has f.id key = false) ∧
  (∃ r ∈ rooms, roomSchedule.has r.id key = false)

/-- The same condition read off the assignments emitted so far. -/
def FeasibleAfter (faculty : List Faculty) (rooms : List Room) (course : Course)
    (as : List Assignment) (key : String) : Prop :=
  (∃ f ∈ faculty, eligible f course = true ∧ ¬ facultyBusy as f.id key) ∧
  (∃ r ∈ rooms, ¬ roomBusy as r.id key)

/-- The schedules record exactly the assignments emitted. -/
def Consistent (st : RunState) : Prop :=
  (∀ id key, st.facultySchedule.has id key = true ↔ facultyBusy st.assignments id key) ∧
  (∀ id key, st.roomSchedule.has id key = true ↔ roomBusy st.assignments id key)

/-- Two assignments clash: same cell and same faculty, or same cell and same room. -/
def Clash (a b : Assignment) : Prop :=
  (a.facultyId = b.facultyId ∧ a.dayOfWeek = b.dayOfWeek ∧ a.startTime = b.startTime) ∨
  (a.roomId = b.roomId ∧ a.dayOfWeek = b.dayOfWeek ∧ a.startTime = b.startTime)

/-- The state grew: assignments were appended and no key was removed. -/
def Extends (st st' : RunState) : Prop :=
  (∃ new, st'.assignments = st.assignments ++ new) ∧
  (∀ id key, st.facultySchedule.has id key = true → st'.facultySchedule.has id key = true) ∧
  (∀ id key, st.roomSchedule.has id key = true → st'.roomSchedule.has id key = true)

/-- The loop body at cell `(day, timeSlot)` took the head of each filter. -/
def Picks (faculty : List Faculty) (rooms : List Room) (course : Course) (st : RunState)
    (day : Nat) (timeSlot : TimeSlot) (f : Faculty) (r : Room) : Prop :=
  (∃ fs, availableFaculty faculty st.facultySchedule course (slotKey day timeSlot.start)
    = f :: fs) ∧
  (∃ rs, availableRooms rooms st.roomSchedule (slotKey day timeSlot.start) = r :: rs)

/-- Every assignment of a state was made for a course of the list with a faculty row that
passes the department test. -/
def FromEligible (courses : List Course) (faculty : List Faculty) (st : RunState) : Prop :=
  ∀ a ∈ st.assignments, ∃ course ∈ courses, ∃ f ∈ faculty,
    a.courseId = course.id ∧ a.facultyId = f.id ∧ eligible f course = true

/-- The number of assignments of a list that carry the id of the course. -/
def assignedTo (course : Course) (as : List Assignment) : Nat :=
  as.countP fun a => a.courseId == course.id

/-- The assignment `a` is the first feasible combination for `course` once the assignments
`earlier` have been made: its cell is the first cell of the scan at which an eligible
faculty row and a room are both free, its faculty row is the first eligible free one, its
room is the first free one, and that room is a largest free one when the rooms are listed
by capacity descending. -/
def FirstFit (g : GreedyScheduler) (faculty : List Faculty) (rooms : List Room)
    (course : Course) (earlier : List Assignment) (a : Assignment) : Prop :=
  a.courseId = course.id ∧
  (∃ before timeSlot after,
    cells g = before ++ (a.dayOfWeek, timeSlot) :: after ∧
    a.startTime = timeSlot.start ∧ a.endTime = timeSlot.end_ ∧
    ∀ c ∈ before, ¬ FeasibleAfter faculty rooms course earlier (slotKey c.1 c.2.start)) ∧
  (∃ before f after,
    faculty = before ++ f :: after ∧ a.facultyId = f.id ∧
    eligible f course = true ∧
    ¬ facultyBusy earlier f.id (slotKey a.dayOfWeek a.startTime) ∧
    ∀ f' ∈ before, ¬ (eligible f' course = true ∧
      ¬ facultyBusy earlier f'.id (slotKey a.dayOfWeek a.startTime))) ∧
  (∃ before r after,
    rooms = before ++ r :: after ∧ a.roomId = r.id ∧
    ¬ roomBusy earlier r.id (slotKey a.dayOfWeek a.startTime) ∧
    (∀ r' ∈ before, roomBusy earlier r'.id (slotKey a.dayOfWeek a.startTime)) ∧
    (rooms.Pairwise (fun x y => x.capacity ≥ y.capacity) →
      ∀ r' ∈ rooms, ¬ roomBusy earlier r'.id (slotKey a.dayOfWeek a.startTime) →
        r'.capacity ≤ r.capacity))

/-- Every assignment of the state is a first fit after the ones before it. -/
def AllFirstFit (g : GreedyScheduler) (courses : List Course) (faculty : List Faculty)
    (rooms : List Room) (st : RunState) : Prop :=
  ∀ earlier a later, st.assignments = earlier ++ a :: later →
    ∃ course ∈ courses, FirstFit g faculty rooms course earlier a

/-- A specification of a step: from a world satisfying `P`, the step either returns `a`
in a world satisfying `Q a`, or throws in a world satisfying `E`. -/
def Triple {σ α : Type} (P : Exec σ → Prop) (m : DbM σ α) (Q : α → Exec σ → Prop)
    (E : Exec σ → Prop) : Prop :=
  ∀ e, P e →
    match m e with
    | (.ok a, e') => Q a e'
    | (.error _, e') => E e'

/-- Since the log `l0`, every statement resolved and none was `COMMIT`. -/
def Progress {σ : Type} (l0 : List (Stmt × Bool)) (e : Exec σ) : Prop :=
  ∃ new, e.log = l0 ++ new ∧ ∀ x ∈ new, x.2 = true ∧ x.1 ≠ Stmt.commit

/-- Since the log `l0`, every statement resolved, none was `COMMIT`, and then one
statement was rejected. -/
def Failed {σ : Type} (l0 : List (Stmt × Bool)) (e : Exec σ) : Prop :=
  ∃ new s, e.log = l0 ++ new ++ [(s, false)] ∧ ∀ x ∈ new, x.2 = true ∧ x.1 ≠ Stmt.commit

/-- Since the log `l0`, every statement resolved and the last one was the only `COMMIT`. -/
def Committed {σ : Type} (l0 : List (Stmt × Bool)) (e : Exec σ) : Prop :=
  ∃ new, e.log = l0 ++ new ++ [(Stmt.commit, true)] ∧
    ∀ x ∈ new, x.2 = true ∧ x.1 ≠ Stmt.commit

/-- A transaction is open on the connection and the committed tables are `c0`. -/
def InTxn (c0 : Tables) (e : Exec Store) : Prop :=
  e.store.committed = c0 ∧ ∃ w, e.store.txn = Txn.active w

/-- The committed tables are `c0` and no transaction is open that could still commit. -/
def Untouched (c0 : Tables) (e : Exec Store) : Prop :=
  e.store.committed = c0 ∧ ∀ w, e.store.txn ≠ Txn.active w

/-- A statement that reads or writes rows (not `BEGIN`, `COMMIT` or `ROLLBACK`). -/
def Stmt.isData : Stmt → Bool
  | .begin => false
  | .commit => false
  | .rollback => false
  | _ => true

/-- The rows of `timetables` of the given term that are active. -/
def activeFor (semester : String) (year : Int) (rows : List TimetableRow) : List TimetableRow :=
  rows.filter fun r => r.semester == semester && r.year == year && r.is_active

/-- A transaction is open whose working `timetables` satisfy `T`. -/
def Working (T : List TimetableRow → Prop) (e : Exec Store) : Prop :=
  ∃ w, e.store.txn = Txn.active w ∧ T w.timetables

/-- The rows are older rows, none with id `n`, followed by the new active row `n`. -/
def Fresh (name semester : String) (year : Int) (n : Nat) (rows : List TimetableRow) : Prop :=
  ∃ old, rows = old ++ [{ id := n, name := name, semester := semester, year := year,
                          is_active := true }] ∧ ∀ r ∈ old, r.id ≠ n

/-- The only active row of the term is the new row `n`. -/
def OnlyActive (name semester : String) (year : Int) (n : Nat) (rows : List TimetableRow) :
    Prop :=
  activeFor semester year rows
    = [{ id := n, name := name, semester := semester, year := year, is_active := true }]

/-- The store never injects a fault and a transaction is open whose working tables have
the courses, faculty and rooms of `db`. -/
def Reads (db : Store) (e : Exec Store) : Prop :=
  (∀ n, e.store.fault n = false) ∧
  ∃ w, e.store.txn = Txn.active w ∧ w.courses = db.committed.courses ∧
    w.faculty = db.committed.faculty ∧ w.rooms = db.committed.rooms

/-- The courses a run for the term loads from `db`. -/
def loadedCourses (db : Store) (semester : String) (year : Int) : List Course :=
  db.committed.courses.filter fun c =>
    c.semester == semester && c.year == year && c.department_id.isSome

/-- The rooms a run loads from `db`: by capacity, descending. -/
def loadedRooms (db : Store) : List Room :=
  db.committed.rooms.insertionSort fun a b => a.capacity ≥ b.capacity

/-- The state of the assignment loop in a run against `db` in which nothing is rejected. -/
def loadedLoop (g : GreedyScheduler) (db : Store) (semester : String) (year : Int) : RunState :=
  assignLoop g db.nextId (loadedCourses db semester year) db.committed.faculty (loadedRooms db)

/-- The value a run against `db` resolves with when nothing is rejected. -/
def resultFor (g : GreedyScheduler) (db : Store) (semester : String) (year : Int) : Result :=
  { timetableId := db.nextId,
    assignmentsCount := (loadedLoop g db semester year).assignments.length,
    message := "Generated timetable with " ++
      toString (loadedLoop g db semester year).assignments.length ++ " slots" }

/-- The first six statements of the `try` block, up to the three loads: the id of the new
timetable and the rows the assignment loop is run on. -/
def loadPhase {σ : Type} (c : Client σ) (semester : String) (year : Int)
    (timetableName : String) : DbM σ (Nat × List Course × List Faculty × List Room) := do
  query c .begin
  let timetableId ← query c (.insertTimetable timetableName semester year true)
  query c (.deactivateOthers semester year timetableId)
  let courses ← query c (.selectCourses semester year)
  let faculty ← query c .selectFaculty
  let rooms ← query c .selectRooms
  pure (timetableId, courses, faculty, rooms)

/-- The rest of the `try` block, from the assignment loop on. -/
def afterLoad {σ : Type} (c : Client σ) (g : GreedyScheduler)
    (loaded : Nat × List Course × List Faculty × List Room) : DbM σ Result := do
  let st := assignLoop g loaded.1 loaded.2.1 loaded.2.2.1 loaded.2.2.2
  warnAll st.warnings
  insertAll c st.assignments
  query c .commit
  pure { timetableId := loaded.1,
         assignmentsCount := st.assignments.length,
         message := "Generated timetable with " ++ toString st.assignments.length ++ " slots" }

/-- Following the words of the claim: the warnings a run owes for a list of courses
processed from state `st`, one for each course, in order, whose loop ends with
`scheduledCredits` strictly below its `credits`, and none for the others. -/
def owedWarnings (g : GreedyScheduler) (timetableId : Nat) (faculty : List Faculty)
    (rooms : List Room) : RunState → List Course → List String
  | _, [] => []
  | st, course :: rest =>
    (if (whileLoop g timetableId faculty rooms course 0 st).1 < course.credits then
      [warningFor course] else []) ++
    owedWarnings g timetableId faculty rooms
      (scheduleCourse g timetableId faculty rooms st course) rest

/-- The console holds `k` and the log extends `l0`. -/
def Keeps {σ : Type} (k : List String) (l0 : List (Stmt × Bool)) (e : Exec σ) : Prop :=
  e.console = k ∧ ∃ new, e.log = l0 ++ new

/-- The console holds `k`, the log extends `l0`, and its last entry is a rejected insert
of an assignment or a rejected `COMMIT`. -/
def StoppedLate {σ : Type} (k : List String) (l0 : List (Stmt × Bool)) (e : Exec σ) : Prop :=
  e.console = k ∧ ∃ new s, e.log = l0 ++ new ++ [(s, false)] ∧
    (s = Stmt.commit ∨ ∃ a, s = Stmt.insertSlot a)

/-! ## The schedules -/

theorem Schedule.has_empty (id : Nat) (key : String) : Schedule.empty.has id key = false := by
  simp [Schedule.has, Schedule.empty]

theorem Schedule.has_add (s : Schedule) (id id' : Nat) (key key' : String) :
    (s.add id key).has id' key' = true ↔ (s.has id' key' = true ∨ (id' = id ∧ key' = key)) := by
  unfold Schedule.add Schedule.has
  by_cases hid : id' = id
  · subst hid
    by_cases hk : (s id').contains key = true
    · simp only [Function.update_same, hk, if_true]
      constructor
      · intro h; exact Or.inl h
      · rintro (h | ⟨-, rfl⟩)
        · exact h
        · exact hk
    · simp only [Function.update_same, hk]
      simp
  · simp [Function.update_noteq hid, hid]

/-! ## The two `for` loops over the grid -/

theorem availableFaculty_eq_nil_iff (faculty : List Faculty) (fs : Schedule) (course : Course)
    (key : String) :
    availableFaculty faculty fs course key = [] ↔
      ¬ ∃ f ∈ faculty, eligible f course = true ∧ fs.has f.id key = false := by
  simp [availableFaculty, List.filter_eq_nil_iff]
  constructor
  · intro h f hf he; simpa [he] using h f hf
  · intro h f hf hfree; have := h f hf; cases he : eligible f course
    · rfl
    · rw [this he] at hfree; exact absurd hfree (by simp)

theorem availableRooms_eq_nil_iff (rooms : List Room) (rs : Schedule) (key : String) :
    availableRooms rooms rs key = [] ↔ ¬ ∃ r ∈ rooms, rs.has r.id key = false := by
  simp [availableRooms, List.filter_eq_nil_iff]

theorem not_feasible_iff (faculty : List Faculty) (rooms : List Room) (course : Course)
    (fs rs : Schedule) (key : String) :
    ¬ Feasible faculty rooms course fs rs key ↔
      (availableFaculty faculty fs course key = [] ∨ availableRooms rooms rs key = []) := by
  rw [availableFaculty_eq_nil_iff, availableRooms_eq_nil_iff, Feasible]
  constructor
  · intro h
    by_cases hf : ∃ f ∈ faculty, eligible f course = true ∧ fs.has f.id key = false
    · exact Or.inr fun hr => h ⟨hf, hr⟩
    · exact Or.inl hf
  · rintro (h | h) ⟨hf, hr⟩
    · exact h hf
    · exact h hr

theorem scanSlots_some (timetableId : Nat) (faculty : List Faculty) (rooms : List Room)
    (course : Course) (day : Nat) (st st' : RunState) (slots : List TimeSlot)
    (h : scanSlots timetableId faculty rooms course day st slots = some st') :
    ∃ before timeSlot after f r, slots = before ++ timeSlot :: after ∧
      (∀ t ∈ before, ¬ Feasible faculty rooms course st.facultySchedule st.roomSchedule
        (slotKey day t.start)) ∧
      Picks faculty rooms course st day timeSlot f r ∧
      st' = place timetableId course day timeSlot f r st := by
  induction slots with
  | nil => simp [scanSlots] at h
  | cons t rest ih =>
    unfold scanSlots at h
    cases hf : availableFaculty faculty st.facultySchedule course (slotKey day t.start) with
    | nil =>
      rw [hf] at h
      obtain ⟨before, ts, after, f, r, hs, hb, hp, hst⟩ := ih h
      refine ⟨t :: before, ts, after, f, r, by simp [hs], ?_, hp, hst⟩
      intro x hx
      rcases List.mem_cons.1 hx with rfl | hx
      · exact (not_feasible_iff _ _ _ _ _ _).2 (Or.inl hf)
      · exact hb x hx
    | cons f fs =>
      rw [hf] at h
      cases hr : availableRooms rooms st.roomSchedule (slotKey day t.start) with
      | nil =>
        rw [hr] at h
        obtain ⟨before, ts, after, f', r, hs, hb, hp, hst⟩ := ih h
        refine ⟨t :: before, ts, after, f', r, by simp [hs], ?_, hp, hst⟩
        intro x hx
        rcases List.mem_cons.1 hx with rfl | hx
        · exact (not_feasible_iff _ _ _ _ _ _).2 (Or.inr hr)
        · exact hb x hx
      | cons r rs =>
        rw [hr] at h
        simp only [Option.some.injEq] at h
        exact ⟨[], t, rest, f, r, rfl, by simp, ⟨⟨fs, hf⟩, ⟨rs, hr⟩⟩, h.symm⟩

theorem scanSlots_none (timetableId : Nat) (faculty : List Faculty) (rooms : List Room)
    (course : Course) (day : Nat) (st : RunState) (slots : List TimeSlot)
    (h : scanSlots timetableId faculty rooms course day st slots = none) :
    ∀ t ∈ slots, ¬ Feasible faculty rooms course st.facultySchedule st.roomSchedule
      (slotKey day t.start) := by
  induction slots with
  | nil => simp
  | cons t rest ih =>
    unfold scanSlots at h
    cases hf : availableFaculty faculty st.facultySchedule course (slotKey day t.start) with
    | nil =>
      rw [hf] at h
      intro x hx
      rcases List.mem_cons.1 hx with rfl | hx
      · exact (not_feasible_iff _ _ _ _ _ _).2 (Or.inl hf)
      · exact ih h x hx
    | cons f fs =>
      rw [hf] at h
      cases hr : availableRooms rooms st.roomSchedule (slotKey day t.start) with
      | nil =>
        rw [hr] at h
        intro x hx
        rcases List.mem_cons.1 hx with rfl | hx
        · exact (not_feasible_iff _ _ _ _ _ _).2 (Or.inr hr)
        · exact ih h x hx
      | cons r rs => rw [hr] at h; simp at h

/-- The cells of a list of days, day-major. -/
theorem cells_eq (g : GreedyScheduler) :
    cells g = g.daysOfWeek.foldr
      (fun day acc => g.timeSlots.map (fun timeSlot => (day, timeSlot)) ++ acc) [] := rfl

theorem scanDays_some (g : GreedyScheduler) (timetableId : Nat) (faculty : List Faculty)
    (rooms : List Room) (course : Course) (st st' : RunState) (days : List Nat)
    (h : scanDays g timetableId faculty rooms course st days = some st') :
    ∃ before day timeSlot after f r,
      days.foldr (fun day acc => g.timeSlots.map (fun timeSlot => (day, timeSlot)) ++ acc) []
        = before ++ (day, timeSlot) :: after ∧
      (∀ c ∈ before, ¬ Feasible faculty rooms course st.facultySchedule st.roomSchedule
        (slotKey c.1 c.2.start)) ∧
      Picks faculty rooms course st day timeSlot f r ∧
      st' = place timetableId course day timeSlot f r st := by
  induction days with
  | nil => simp [scanDays] at h
  | cons d rest ih =>
    unfold scanDays at h
    cases hs : scanSlots timetableId faculty rooms course d st g.timeSlots with
    | some st1 =>
      rw [hs] at h
      simp only [Option.some.injEq] at h
      subst h
      obtain ⟨before, ts, after, f, r, hsl, hb, hp, hst⟩ := scanSlots_some _ _ _ _ _ _ _ _ hs
      refine ⟨before.map (fun t => (d, t)), d, ts,
        after.map (fun t => (d, t)) ++
          rest.foldr (fun day acc => g.timeSlots.map (fun timeSlot => (day, timeSlot)) ++ acc) [],
        f, r, ?_, ?_, hp, hst⟩
      · simp [List.foldr, hsl]
      · intro c hc
        obtain ⟨t, ht, rfl⟩ := List.mem_map.1 hc
        exact hb t ht
    | none =>
      rw [hs] at h
      obtain ⟨before, day, ts, after, f, r, hc, hb, hp, hst⟩ := ih h
      refine ⟨g.timeSlots.map (fun t => (d, t)) ++ before, day, ts, after, f, r, ?_, ?_, hp, hst⟩
      · simp [List.foldr, hc]
      · intro c hc
        rcases List.mem_append.1 hc with hc | hc
        · obtain ⟨t, ht, rfl⟩ := List.mem_map.1 hc
          exact scanSlots_none _ _ _ _ _ _ _ hs t ht
        · exact hb c hc

theorem scanDays_none (g : GreedyScheduler) (timetableId : Nat) (faculty : List Faculty)
    (rooms : List Room) (course : Course) (st : RunState) (days : List Nat)
    (h : scanDays g timetableId faculty rooms course st days = none) :
    ∀ c ∈ days.foldr
        (fun day acc => g.timeSlots.map (fun timeSlot => (day, timeSlot)) ++ acc) [],
      ¬ Feasible faculty rooms course st.facultySchedule st.roomSchedule
        (slotKey c.1 c.2.start) := by
  induction days with
  | nil => simp
  | cons d rest ih =>
    unfold scanDays at h
    cases hs : scanSlots timetableId faculty rooms course d st g.timeSlots with
    | some st1 => rw [hs] at h; simp at h
    | none =>
      rw [hs] at h
      intro c hc
      simp only [List.foldr, List.mem_append, List.mem_map] at hc
      rcases hc with ⟨t, ht, rfl⟩ | hc
      · exact scanSlots_none _ _ _ _ _ _ _ hs t ht
      · exact ih h c hc

/-! ## The `while` loop -/

theorem whileLoop_done (g : GreedyScheduler) (timetableId : Nat) (faculty : List Faculty)
    (rooms : List Room) (course : Course) (sc : Int) (st : RunState)
    (h : ¬ sc < course.credits) :
    whileLoop g timetableId faculty rooms course sc st = (sc, st) := by
  rw [whileLoop, if_neg h]

theorem whileLoop_break (g : GreedyScheduler) (timetableId : Nat) (faculty : List Faculty)
    (rooms : List Room) (course : Course) (sc : Int) (st : RunState)
    (h : sc < course.credits)
    (hs : scanDays g timetableId faculty rooms course st g.daysOfWeek = none) :
    whileLoop g timetableId faculty rooms course sc st
      = (sc, { st with warnings := st.warnings ++ [warningFor course] }) := by
  rw [whileLoop, if_pos h, hs]

theorem whileLoop_step (g : GreedyScheduler) (timetableId : Nat) (faculty : List Faculty)
    (rooms : List Room) (course : Course) (sc : Int) (st st' : RunState)
    (h : sc < course.credits)
    (hs : scanDays g timetableId faculty rooms course st g.daysOfWeek = some st') :
    whileLoop g timetableId faculty rooms course sc st
      = whileLoop g timetableId faculty rooms course (sc + 1) st' := by
  rw [whileLoop, if_pos h, hs]

/-- Induction along the iterations of the `while` loop. -/
theorem whileLoop_induction (g : GreedyScheduler) (timetableId : Nat) (faculty : List Faculty)
    (rooms : List Room) (course : Course) (P : Int → RunState → Int × RunState → Prop)
    (done : ∀ sc st, ¬ sc < course.credits → P sc st (sc, st))
    (brk : ∀ sc st, sc < course.credits →
      scanDays g timetableId faculty rooms course st g.daysOfWeek = none →
      P sc st (sc, { st with warnings := st.warnings ++ [warningFor course] }))
    (step : ∀ sc st st' out, sc < course.credits →
      scanDays g timetableId faculty rooms course st g.daysOfWeek = some st' →
      P (sc + 1) st' out → P sc st out)
    (sc : Int) (st : RunState) :
    P sc st (whileLoop g timetableId faculty rooms course sc st) := by
  generalize hn : (course.credits - sc).toNat = n
  induction n generalizing sc st with
  | zero =>
    have h : ¬ sc < course.credits := by omega
    rw [whileLoop_done _ _ _ _ _ _ _ h]
    exact done sc st h
  | succ n ih =>
    have h : sc < course.credits := by omega
    cases hs : scanDays g timetableId faculty rooms course st g.daysOfWeek with
    | none =>
      rw [whileLoop_break _ _ _ _ _ _ _ h hs]
      exact brk sc st h hs
    | some st' =>
      rw [whileLoop_step _ _ _ _ _ _ _ _ h hs]
      exact step sc st st' _ h hs (ih (sc + 1) st' (by omega))

/-- A property kept by every placement and by the warning is kept by the `while` loop. -/
theorem whileLoop_preserves (g : GreedyScheduler) (timetableId : Nat) (faculty : List Faculty)
    (rooms : List Room) (course : Course) (I : RunState → Prop)
    (hplace : ∀ st before day timeSlot after f r, I st →
      cells g = before ++ (day, timeSlot) :: after →
      (∀ c ∈ before, ¬ Feasible faculty rooms course st.facultySchedule st.roomSchedule
        (slotKey c.1 c.2.start)) →
      Picks faculty rooms course st day timeSlot f r →
      I (place timetableId course day timeSlot f r st))
    (hwarn : ∀ st, I st → I { st with warnings := st.warnings ++ [warningFor course] })
    (sc : Int) (st : RunState) (h : I st) :
    I (whileLoop g timetableId faculty rooms course sc st).2 := by
  refine whileLoop_induction g timetableId faculty rooms course
    (fun _ st out => I st → I out.2) ?_ ?_ ?_ sc st h
  · intro _ _ _ h; exact h
  · intro _ st _ _ h; exact hwarn st h
  · intro _ st st' out _ hs ih h
    obtain ⟨before, day, ts, after, f, r, hc, hb, hp, rfl⟩ := scanDays_some _ _ _ _ _ _ _ _ hs
    exact ih (hplace st before day ts after f r h hc hb hp)

/-- A property kept by every placement and by every warning is kept by the course loop. -/
theorem forCourses_preserves (g : GreedyScheduler) (timetableId : Nat) (faculty : List Faculty)
    (rooms : List Room) (courses : List Course) (I : RunState → Prop)
    (hplace : ∀ course ∈ courses, ∀ st before day timeSlot after f r, I st →
      cells g = before ++ (day, timeSlot) :: after →
      (∀ c ∈ before, ¬ Feasible faculty rooms course st.facultySchedule st.roomSchedule
        (slotKey c.1 c.2.start)) →
      Picks faculty rooms course st day timeSlot f r →
      I (place timetableId course day timeSlot f r st))
    (hwarn : ∀ course ∈ courses, ∀ st, I st →
      I { st with warnings := st.warnings ++ [warningFor course] })
    (st : RunState) (h : I st) :
    I (forCourses g timetableId faculty rooms st courses) := by
  induction courses generalizing st with
  | nil => exact h
  | cons c rest ih =>
    simp only [forCourses, List.foldl_cons]
    refine ih (fun course hc => hplace course (List.mem_cons_of_mem _ hc))
      (fun course hc => hwarn course (List.mem_cons_of_mem _ hc)) _ ?_
    exact whileLoop_preserves g timetableId faculty rooms c I
      (hplace c (List.mem_cons_self _ _)) (hwarn c (List.mem_cons_self _ _)) 0 st h

theorem picks_facts (faculty : List Faculty) (rooms : List Room) (course : Course)
    (st : RunState) (day : Nat) (timeSlot : TimeSlot) (f : Faculty) (r : Room)
    (h : Picks faculty rooms course st day timeSlot f r) :
    (f ∈ faculty ∧ eligible f course = true ∧
      st.facultySchedule.has f.id (slotKey day timeSlot.start) = false) ∧
    (r ∈ rooms ∧ st.roomSchedule.has r.id (slotKey day timeSlot.start) = false) := by
  obtain ⟨⟨fs, hf⟩, ⟨rs, hr⟩⟩ := h
  have h1 : f ∈ availableFaculty faculty st.facultySchedule course (slotKey day timeSlot.start) := by
    rw [hf]; exact List.mem_cons_self _ _
  have h2 : r ∈ availableRooms rooms st.roomSchedule (slotKey day timeSlot.start) := by
    rw [hr]; exact List.mem_cons_self _ _
  simp only [availableFaculty, availableRooms, List.mem_filter, Bool.and_eq_true,
    Bool.not_eq_true'] at h1 h2
  exact ⟨⟨h1.1, h1.2.2, h1.2.1⟩, h2⟩

theorem consistent_init : Consistent RunState.init := by
  constructor <;> intro id key <;>
    simp [RunState.init, Schedule.has_empty, facultyBusy, roomBusy]

theorem consistent_place (timetableId : Nat) (course : Course) (day : Nat) (timeSlot : TimeSlot)
    (f : Faculty) (r : Room) (st : RunState) (h : Consistent st) :
    Consistent (place timetableId course day timeSlot f r st) := by
  obtain ⟨hF, hR⟩ := h
  constructor
  · intro id key
    simp only [place, Schedule.has_add, hF, facultyBusy, List.mem_append, List.mem_singleton]
    constructor
    · rintro (⟨a, ha, h1, h2⟩ | ⟨rfl, rfl⟩)
      · exact ⟨a, Or.inl ha, h1, h2⟩
      · exact ⟨_, Or.inr rfl, rfl, rfl⟩
    · rintro ⟨a, ha | rfl, h1, h2⟩
      · exact Or.inl ⟨a, ha, h1, h2⟩
      · exact Or.inr ⟨h1.symm, h2.symm⟩
  · intro id key
    simp only [place, Schedule.has_add, hR, roomBusy, List.mem_append, List.mem_singleton]
    constructor
    · rintro (⟨a, ha, h1, h2⟩ | ⟨rfl, rfl⟩)
      · exact ⟨a, Or.inl ha, h1, h2⟩
      · exact ⟨_, Or.inr rfl, rfl, rfl⟩
    · rintro ⟨a, ha | rfl, h1, h2⟩
      · exact Or.inl ⟨a, ha, h1, h2⟩
      · exact Or.inr ⟨h1.symm, h2.symm⟩

theorem consistent_assignLoop (g : GreedyScheduler) (timetableId : Nat) (courses : List Course)
    (faculty : List Faculty) (rooms : List Room) :
    Consistent (assignLoop g timetableId courses faculty rooms) :=
  forCourses_preserves g timetableId faculty rooms courses Consistent
    (fun course _ st _ day ts _ f r h _ _ _ => consistent_place timetableId course day ts f r st h)
    (fun _ _ _ h => h) _ consistent_init

/-- Placing on a free faculty and a free room keeps the assignments free of clashes. -/
theorem noClash_place (timetableId : Nat) (faculty : List Faculty) (rooms : List Room)
    (course : Course) (day : Nat) (timeSlot : TimeSlot) (f : Faculty) (r : Room) (st : RunState)
    (hc : Consistent st) (hp : Picks faculty rooms course st day timeSlot f r)
    (h : st.assignments.Pairwise fun a b => ¬ Clash a b) :
    (place timetableId course day timeSlot f r st).assignments.Pairwise
      fun a b => ¬ Clash a b := by
  obtain ⟨⟨-, -, hff⟩, ⟨-, hrf⟩⟩ := picks_facts _ _ _ _ _ _ _ _ hp
  simp only [place, List.pairwise_append, List.pairwise_cons, List.mem_singleton]
  refine ⟨h, ⟨by simp, List.Pairwise.nil⟩, ?_⟩
  rintro a ha b rfl (⟨h1, h2, h3⟩ | ⟨h1, h2, h3⟩)
  · have : st.facultySchedule.has f.id (slotKey day timeSlot.start) = true :=
      (hc.1 _ _).2 ⟨a, ha, h1, by rw [h2, h3]; rfl⟩
    rw [hff] at this; exact absurd this (by simp)
  · have : st.roomSchedule.has r.id (slotKey day timeSlot.start) = true :=
      (hc.2 _ _).2 ⟨a, ha, h1, by rw [h2, h3]; rfl⟩
    rw [hrf] at this; exact absurd this (by simp)

theorem noClash_assignLoop (g : GreedyScheduler) (timetableId : Nat) (courses : List Course)
    (faculty : List Faculty) (rooms : List Room) :
    (assignLoop g timetableId courses faculty rooms).assignments.Pairwise
      fun a b => ¬ Clash a b := by
  have := forCourses_preserves g timetableId faculty rooms courses
    (fun st => Consistent st ∧ st.assignments.Pairwise fun a b => ¬ Clash a b)
    (fun course _ st _ day ts _ f r h _ _ hp =>
      ⟨consistent_place timetableId course day ts f r st h.1,
        noClash_place timetableId faculty rooms course day ts f r st h.1 hp h.2⟩)
    (fun _ _ _ h => h) RunState.init ⟨consistent_init, by simp [RunState.init]⟩
  exact this.2

/-- Claim C1: no double-booking. For every grid, course list, faculty list and room list,
any two assignments `a` and `b` emitted by the assignment loop at different positions of
its output do not share both the faculty id and the cell (day of week, start time), and do
not share both the room id and the cell. -/
theorem C1_no_double_booking (g : GreedyScheduler) (timetableId : Nat) (courses : List Course)
    (faculty : List Faculty) (rooms : List Room) (i j : Nat) (a b : Assignment)
    (hij : i ≠ j)
    (ha : (assignLoop g timetableId courses faculty rooms).assignments[i]? = some a)
    (hb : (assignLoop g timetableId courses faculty rooms).assignments[j]? = some b) :
    ¬ (a.facultyId = b.facultyId ∧ a.dayOfWeek = b.dayOfWeek ∧ a.startTime = b.startTime) ∧
    ¬ (a.roomId = b.roomId ∧ a.dayOfWeek = b.dayOfWeek ∧ a.startTime = b.startTime) := by
  have hpw := List.pairwise_iff_getElem.1 (noClash_assignLoop g timetableId courses faculty rooms)
  obtain ⟨hi, rfl⟩ := List.getElem?_eq_some_iff.1 ha
  obtain ⟨hj, rfl⟩ := List.getElem?_eq_some_iff.1 hb
  rcases Nat.lt_or_gt_of_ne hij with hlt | hgt
  · have := hpw i j hi hj hlt
    exact ⟨fun h => this (Or.inl h), fun h => this (Or.inr h)⟩
  · have := hpw j i hj hi hgt
    exact ⟨fun h => this (Or.inl ⟨h.1.symm, h.2.1.symm, h.2.2.symm⟩),
      fun h => this (Or.inr ⟨h.1.symm, h.2.1.symm, h.2.2.symm⟩)⟩

/-! ## Evaluation through the bounded loop -/

theorem whileLoopFuel_eq (g : GreedyScheduler) (timetableId : Nat) (faculty : List Faculty)
    (rooms : List Room) (course : Course) (sc : Int) (st : RunState) :
    ∀ fuel, (course.credits - sc).toNat ≤ fuel →
      whileLoopFuel g timetableId faculty rooms course fuel sc st
        = some (whileLoop g timetableId faculty rooms course sc st) := by
  refine whileLoop_induction g timetableId faculty rooms course
    (fun sc st out => ∀ fuel, (course.credits - sc).toNat ≤ fuel →
      whileLoopFuel g timetableId faculty rooms course fuel sc st = some out) ?_ ?_ ?_ sc st
  · intro sc st h fuel _
    unfold whileLoopFuel
    rw [if_neg h]
  · intro sc st h hs fuel hfuel
    unfold whileLoopFuel
    rw [if_pos h]
    cases fuel with
    | zero => omega
    | succ n => simp only [hs]
  · intro sc st st' out h hs ih fuel hfuel
    unfold whileLoopFuel
    rw [if_pos h]
    cases fuel with
    | zero => omega
    | succ n =>
      simp only [hs]
      exact ih n (by omega)

theorem assignLoopFuel_eq (fuel : Nat) (g : GreedyScheduler) (timetableId : Nat)
    (courses : List Course) (faculty : List Faculty) (rooms : List Room)
    (hfuel : ∀ c ∈ courses, c.credits.toNat ≤ fuel) :
    assignLoopFuel fuel g timetableId courses faculty rooms
      = some (assignLoop g timetableId courses faculty rooms) := by
  unfold assignLoopFuel assignLoop forCourses
  generalize RunState.init = st
  induction courses generalizing st with
  | nil => rfl
  | cons c rest ih =>
    simp only [List.foldl_cons, Option.some_bind]
    rw [whileLoopFuel_eq g timetableId faculty rooms c 0 st fuel
      (by simpa using hfuel c (List.mem_cons_self _ _))]
    exact ih (fun c hc => hfuel c (List.mem_cons_of_mem _ hc)) _

/-- The assignments of the loop, read off a bounded run that did not hit its bound. -/
theorem assignments_of_fuel (fuel : Nat) (g : GreedyScheduler) (timetableId : Nat)
    (courses : List Course) (faculty : List Faculty) (rooms : List Room)
    (as : List Assignment)
    (h : (assignLoopFuel fuel g timetableId courses faculty rooms).map
      (fun st => st.assignments) = some as)
    (hfuel : ∀ c ∈ courses, c.credits.toNat ≤ fuel) :
    (assignLoop g timetableId courses faculty rooms).assignments = as := by
  rw [assignLoopFuel_eq fuel g timetableId courses faculty rooms hfuel] at h
  simpa using h

/-- The warnings of the loop, read off a bounded run that did not hit its bound. -/
theorem warnings_of_fuel (fuel : Nat) (g : GreedyScheduler) (timetableId : Nat)
    (courses : List Course) (faculty : List Faculty) (rooms : List Room)
    (ws : List String)
    (h : (assignLoopFuel fuel g timetableId courses faculty rooms).map
      (fun st => st.warnings) = some ws)
    (hfuel : ∀ c ∈ courses, c.credits.toNat ≤ fuel) :
    (assignLoop g timetableId courses faculty rooms).warnings = ws := by
  rw [assignLoopFuel_eq fuel g timetableId courses faculty rooms hfuel] at h
  simpa using h

theorem twoCourses_assignments :
    (assignLoop GreedyScheduler.constructor 1 twoCourses oneTeacher oneRoom).assignments
      = twoCoursesOutput :=
  assignments_of_fuel 1 _ _ _ _ _ _ (by decide) (by decide)

/-- Witness of C1: two courses of one department, one teacher, one room. -/
theorem C1_no_double_booking_witness :
    ((0 : Nat) ≠ 1 ∧
      (assignLoop GreedyScheduler.constructor 1 twoCourses oneTeacher oneRoom).assignments[0]?
        = some { timetableId := 1, courseId := 1, facultyId := 1, roomId := 1, dayOfWeek := 1,
                 startTime := "09:00", endTime := "10:00" } ∧
      (assignLoop GreedyScheduler.constructor 1 twoCourses oneTeacher oneRoom).assignments[1]?
        = some { timetableId := 1, courseId := 2, facultyId := 1, roomId := 1, dayOfWeek := 1,
                 startTime := "10:00", endTime := "11:00" }) ∧
    ¬ ((1 : Nat) = 1 ∧ (1 : Nat) = 1 ∧ "09:00" = "10:00") ∧
    ¬ ((1 : Nat) = 1 ∧ (1 : Nat) = 1 ∧ "09:00" = "10:00") :=
  ⟨⟨by decide, by rw [twoCourses_assignments]; rfl, by rw [twoCourses_assignments]; rfl⟩,
   C1_no_double_booking GreedyScheduler.constructor 1 twoCourses oneTeacher oneRoom 0 1 _ _
    (by decide) (by rw [twoCourses_assignments]; rfl) (by rw [twoCourses_assignments]; rfl)⟩

/-! ## What one course contributes -/

theorem extends_refl (st : RunState) : Extends st st :=
  ⟨⟨[], by simp⟩, fun _ _ h => h, fun _ _ h => h⟩

theorem extends_trans {a b c : RunState} (h1 : Extends a b) (h2 : Extends b c) :
    Extends a c := by
  obtain ⟨⟨n1, e1⟩, f1, r1⟩ := h1
  obtain ⟨⟨n2, e2⟩, f2, r2⟩ := h2
  exact ⟨⟨n1 ++ n2, by rw [e2, e1, List.append_assoc]⟩,
    fun id key h => f2 id key (f1 id key h), fun id key h => r2 id key (r1 id key h)⟩

theorem extends_place (timetableId : Nat) (course : Course) (day : Nat) (timeSlot : TimeSlot)
    (f : Faculty) (r : Room) (st : RunState) :
    Extends st (place timetableId course day timeSlot f r st) :=
  ⟨⟨_, rfl⟩, fun _ _ h => (Schedule.has_add _ _ _ _ _).2 (Or.inl h),
    fun _ _ h => (Schedule.has_add _ _ _ _ _).2 (Or.inl h)⟩

/-- Feasibility only shrinks as the state grows. -/
theorem not_feasible_of_extends (faculty : List Faculty) (rooms : List Room) (course : Course)
    (st st' : RunState) (key : String) (hx : Extends st st')
    (h : ¬ Feasible faculty rooms course st.facultySchedule st.roomSchedule key) :
    ¬ Feasible faculty rooms course st'.facultySchedule st'.roomSchedule key := by
  rintro ⟨⟨f, hf, he, hfree⟩, ⟨r, hr, hrfree⟩⟩
  refine h ⟨⟨f, hf, he, ?_⟩, ⟨r, hr, ?_⟩⟩
  · cases hb : st.facultySchedule.has f.id key
    · rfl
    · rw [hx.2.1 _ _ hb] at hfree; exact absurd hfree (by simp)
  · cases hb : st.roomSchedule.has r.id key
    · rfl
    · rw [hx.2.2 _ _ hb] at hrfree; exact absurd hrfree (by simp)

/-- Everything the `while` loop of one course does, from any value of the counter. -/
theorem whileLoop_facts (g : GreedyScheduler) (timetableId : Nat) (faculty : List Faculty)
    (rooms : List Room) (course : Course) (sc : Int) (st : RunState) :
    sc ≤ (whileLoop g timetableId faculty rooms course sc st).1 ∧
    (sc ≤ course.credits →
      (whileLoop g timetableId faculty rooms course sc st).1 ≤ course.credits) ∧
    (∃ new, (whileLoop g timetableId faculty rooms course sc st).2.assignments
        = st.assignments ++ new ∧
      (new.length : Int) = (whileLoop g timetableId faculty rooms course sc st).1 - sc ∧
      ∀ a ∈ new, a.courseId = course.id ∧ a.timetableId = timetableId) ∧
    Extends st (whileLoop g timetableId faculty rooms course sc st).2 ∧
    (((whileLoop g timetableId faculty rooms course sc st).1 < course.credits ∧
        (whileLoop g timetableId faculty rooms course sc st).2.warnings
          = st.warnings ++ [warningFor course] ∧
        ∀ c ∈ cells g, ¬ Feasible faculty rooms course
          (whileLoop g timetableId faculty rooms course sc st).2.facultySchedule
          (whileLoop g timetableId faculty rooms course sc st).2.roomSchedule
          (slotKey c.1 c.2.start)) ∨
      (¬ (whileLoop g timetableId faculty rooms course sc st).1 < course.credits ∧
        (whileLoop g timetableId faculty rooms course sc st).2.warnings = st.warnings)) := by
  refine whileLoop_induction g timetableId faculty rooms course
    (fun sc st out =>
      sc ≤ out.1 ∧ (sc ≤ course.credits → out.1 ≤ course.credits) ∧
      (∃ new, out.2.assignments = st.assignments ++ new ∧
        (new.length : Int) = out.1 - sc ∧
        ∀ a ∈ new, a.courseId = course.id ∧ a.timetableId = timetableId) ∧
      Extends st out.2 ∧
      ((out.1 < course.credits ∧ out.2.warnings = st.warnings ++ [warningFor course] ∧
          ∀ c ∈ cells g, ¬ Feasible faculty rooms course out.2.facultySchedule
            out.2.roomSchedule (slotKey c.1 c.2.start)) ∨
        (¬ out.1 < course.credits ∧ out.2.warnings = st.warnings))) ?_ ?_ ?_ sc st
  · intro sc st h
    exact ⟨le_refl _, fun h => h, ⟨[], by simp⟩, extends_refl st, Or.inr ⟨h, rfl⟩⟩
  · intro sc st h hs
    refine ⟨le_refl _, fun h => h, ⟨[], by simp⟩, ⟨⟨[], by simp⟩, fun _ _ h => h, fun _ _ h => h⟩,
      Or.inl ⟨h, rfl, ?_⟩⟩
    exact scanDays_none g timetableId faculty rooms course st g.daysOfWeek hs
  · intro sc st st' out h hs ih
    obtain ⟨before, day, ts, after, f, r, -, -, -, rfl⟩ := scanDays_some _ _ _ _ _ _ _ _ hs
    obtain ⟨h1, h2, ⟨new, hn1, hn2, hn3⟩, h4, h5⟩ := ih
    refine ⟨by omega, fun _ => h2 (by omega), ?_,
      extends_trans (extends_place timetableId course day ts f r st) h4, ?_⟩
    · refine ⟨newAssignment timetableId course day ts f r :: new, ?_, ?_, ?_⟩
      · rw [hn1]; simp [place]
      · simp only [List.length_cons, Nat.cast_add, Nat.cast_one]; omega
      · intro a ha
        rcases List.mem_cons.1 ha with rfl | ha
        · exact ⟨rfl, rfl⟩
        · exact hn3 a ha
    · rcases h5 with ⟨a, b, c⟩ | ⟨a, b⟩
      · exact Or.inl ⟨a, by rw [b]; rfl, c⟩
      · exact Or.inr ⟨a, by rw [b]; rfl⟩

theorem scheduleCourse_extends (g : GreedyScheduler) (timetableId : Nat)
    (faculty : List Faculty) (rooms : List Room) (st : RunState) (course : Course) :
    Extends st (scheduleCourse g timetableId faculty rooms st course) :=
  (whileLoop_facts g timetableId faculty rooms course 0 st).2.2.2.1

theorem forCourses_extends (g : GreedyScheduler) (timetableId : Nat) (faculty : List Faculty)
    (rooms : List Room) (courses : List Course) (st : RunState) :
    Extends st (forCourses g timetableId faculty rooms st courses) := by
  induction courses generalizing st with
  | nil => exact extends_refl st
  | cons c rest ih =>
    simp only [forCourses, List.foldl_cons]
    exact extends_trans (scheduleCourse_extends g timetableId faculty rooms st c) (ih _)

theorem forCourses_length_le (g : GreedyScheduler) (timetableId : Nat) (faculty : List Faculty)
    (rooms : List Room) (courses : List Course) (st : RunState)
    (hcredits : ∀ c ∈ courses, 0 ≤ c.credits) :
    ((forCourses g timetableId faculty rooms st courses).assignments.length : Int)
      ≤ st.assignments.length + (courses.map fun c => c.credits).sum := by
  induction courses generalizing st with
  | nil => simp [forCourses]
  | cons c rest ih =>
    simp only [forCourses, List.foldl_cons, List.map_cons, List.sum_cons]
    have h := ih (scheduleCourse g timetableId faculty rooms st c)
      (fun c hc => hcredits c (List.mem_cons_of_mem _ hc))
    obtain ⟨-, h2, ⟨new, hn1, hn2, -⟩, -, -⟩ := whileLoop_facts g timetableId faculty rooms c 0 st
    have h0 := h2 (hcredits c (List.mem_cons_self _ _))
    have hlen : ((scheduleCourse g timetableId faculty rooms st c).assignments.length : Int)
        = st.assignments.length + new.length := by
      simp only [scheduleCourse, hn1, List.length_append, Nat.cast_add]
    simp only [forCourses] at h
    omega

/-- Claim C4: assignment bound. For every grid, faculty list and room list, and every
course list in which each course has `credits ≥ 0`, the number of assignments the loop
emits (the value returned as `assignmentsCount`) is at most the sum of the credits. -/
theorem C4_assignment_bound (g : GreedyScheduler) (timetableId : Nat) (courses : List Course)
    (faculty : List Faculty) (rooms : List Room)
    (hcredits : ∀ c ∈ courses, 0 ≤ c.credits) :
    ((assignLoop g timetableId courses faculty rooms).assignments.length : Int)
      ≤ (courses.map fun c => c.credits).sum := by
  have := forCourses_length_le g timetableId faculty rooms courses RunState.init hcredits
  simpa [assignLoop, RunState.init] using this

/-- Witness of C4: two one-credit courses yield at most two assignments. -/
theorem C4_assignment_bound_witness :
    (∀ c ∈ twoCourses, 0 ≤ c.credits) ∧
    ((assignLoop GreedyScheduler.constructor 1 twoCourses oneTeacher oneRoom).assignments.length
      : Int) ≤ (twoCourses.map fun c => c.credits).sum :=
  ⟨by decide,
   C4_assignment_bound GreedyScheduler.constructor 1 twoCourses oneTeacher oneRoom (by decide)⟩

/-! ## Termination of the `while` loop -/

/-- Claim C10: the per-course loop terminates. While the loop condition holds, an
iteration either finds a cell, appends exactly one assignment and goes on with
`scheduledCredits + 1`, or finds none, appends nothing and leaves the loop with the
warning; when the condition fails the loop is over; and from `scheduledCredits = 0`
the loop is over within `credits + 1` iterations of its body. -/
theorem C10_while_terminates (g : GreedyScheduler) (timetableId : Nat) (faculty : List Faculty)
    (rooms : List Room) (course : Course) :
    (∀ sc st, sc < course.credits →
      (∃ st' a, scanDays g timetableId faculty rooms course st g.daysOfWeek = some st' ∧
        st'.assignments = st.assignments ++ [a] ∧
        whileLoop g timetableId faculty rooms course sc st
          = whileLoop g timetableId faculty rooms course (sc + 1) st') ∨
      (scanDays g timetableId faculty rooms course st g.daysOfWeek = none ∧
        whileLoop g timetableId faculty rooms course sc st
          = (sc, { st with warnings := st.warnings ++ [warningFor course] }))) ∧
    (∀ sc st, ¬ sc < course.credits →
      whileLoop g timetableId faculty rooms course sc st = (sc, st)) ∧
    (∀ st, whileLoopFuel g timetableId faculty rooms course (course.credits.toNat + 1) 0 st
      = some (whileLoop g timetableId faculty rooms course 0 st)) := by
  refine ⟨?_, ?_, ?_⟩
  · intro sc st h
    cases hs : scanDays g timetableId faculty rooms course st g.daysOfWeek with
    | none => exact Or.inr ⟨rfl, whileLoop_break _ _ _ _ _ _ _ h hs⟩
    | some st' =>
      refine Or.inl ⟨st', ?_⟩
      obtain ⟨before, day, ts, after, f, r, -, -, -, rfl⟩ := scanDays_some _ _ _ _ _ _ _ _ hs
      exact ⟨newAssignment timetableId course day ts f r, rfl, rfl,
        whileLoop_step _ _ _ _ _ _ _ _ h hs⟩
  · intro sc st h
    exact whileLoop_done _ _ _ _ _ _ _ h
  · intro st
    exact whileLoopFuel_eq g timetableId faculty rooms course 0 st _ (by simp)

/-- Witness of C10: the first iteration for a one-credit course on the empty state. -/
theorem C10_while_terminates_witness :
    (0 : Int) < (sampleCourse 1 "Algebra" 1 1).credits ∧
    ((∃ st' a, scanDays GreedyScheduler.constructor 1 oneTeacher oneRoom
          (sampleCourse 1 "Algebra" 1 1) RunState.init GreedyScheduler.constructor.daysOfWeek
          = some st' ∧
        st'.assignments = RunState.init.assignments ++ [a] ∧
        whileLoop GreedyScheduler.constructor 1 oneTeacher oneRoom
            (sampleCourse 1 "Algebra" 1 1) 0 RunState.init
          = whileLoop GreedyScheduler.constructor 1 oneTeacher oneRoom
            (sampleCourse 1 "Algebra" 1 1) (0 + 1) st') ∨
      (scanDays GreedyScheduler.constructor 1 oneTeacher oneRoom
          (sampleCourse 1 "Algebra" 1 1) RunState.init GreedyScheduler.constructor.daysOfWeek
          = none ∧
        whileLoop GreedyScheduler.constructor 1 oneTeacher oneRoom
            (sampleCourse 1 "Algebra" 1 1) 0 RunState.init
          = (0, { RunState.init with
              warnings := RunState.init.warnings ++
                [warningFor (sampleCourse 1 "Algebra" 1 1)] }))) :=
  ⟨by decide,
   (C10_while_terminates GreedyScheduler.constructor 1 oneTeacher oneRoom
      (sampleCourse 1 "Algebra" 1 1)).1 0 RunState.init (by decide)⟩

/-! ## Departments -/

theorem eligible_iff (f : Faculty) (course : Course) :
    eligible f course = true ↔
      (f.department_id = course.department_id ∨ f.department_id = none ∨
        f.department_id = some 0) := by
  unfold eligible
  rcases hd : f.department_id with _ | _ | n
  · simp [falsy]
  · simp [falsy]
  · simp [falsy]

theorem fromEligible_assignLoop (g : GreedyScheduler) (timetableId : Nat)
    (courses : List Course) (faculty : List Faculty) (rooms : List Room) :
    FromEligible courses faculty (assignLoop g timetableId courses faculty rooms) := by
  refine forCourses_preserves g timetableId faculty rooms courses (FromEligible courses faculty)
    ?_ (fun _ _ _ h => h) RunState.init (by simp [FromEligible, RunState.init])
  intro course hc st before day ts after f r h _ _ hp a ha
  obtain ⟨⟨hf, he, -⟩, -⟩ := picks_facts _ _ _ _ _ _ _ _ hp
  simp only [place, List.mem_append, List.mem_singleton] at ha
  rcases ha with ha | rfl
  · exact h a ha
  · exact ⟨course, hc, f, hf, rfl, rfl, he⟩

theorem scanDays_none_of_no_eligible (g : GreedyScheduler) (timetableId : Nat)
    (faculty : List Faculty) (rooms : List Room) (course : Course) (st : RunState)
    (h : ∀ f ∈ faculty, eligible f course = false) :
    scanDays g timetableId faculty rooms course st g.daysOfWeek = none := by
  cases hs : scanDays g timetableId faculty rooms course st g.daysOfWeek with
  | none => rfl
  | some st' =>
    obtain ⟨_, day, ts, _, f, r, -, -, hp, -⟩ := scanDays_some _ _ _ _ _ _ _ _ hs
    obtain ⟨⟨hf, he, -⟩, -⟩ := picks_facts _ _ _ _ _ _ _ _ hp
    rw [h f hf] at he
    exact absurd he (by simp)

/-- Away from the department id 0 the filter does what a test for `null` would do: when
no faculty row has the department id 0, every assignment emitted was made for a course of
the input with a faculty row of the input whose department equals the department of that
course or is unset (`null`), and a course for which no faculty row has such a department
gets no assignment when it is processed, from whatever state. -/
theorem department_match_of_no_zero (g : GreedyScheduler) (timetableId : Nat)
    (courses : List Course) (faculty : List Faculty) (rooms : List Room)
    (hzero : ∀ f ∈ faculty, f.department_id ≠ some 0) :
    (∀ a ∈ (assignLoop g timetableId courses faculty rooms).assignments,
      ∃ course ∈ courses, ∃ f ∈ faculty, a.courseId = course.id ∧ a.facultyId = f.id ∧
        (f.department_id = course.department_id ∨ f.department_id = none)) ∧
    (∀ course st,
      (∀ f ∈ faculty, ¬ (f.department_id = course.department_id ∨ f.department_id = none)) →
      (scheduleCourse g timetableId faculty rooms st course).assignments = st.assignments) := by
  constructor
  · intro a ha
    obtain ⟨course, hc, f, hf, h1, h2, he⟩ :=
      fromEligible_assignLoop g timetableId courses faculty rooms a ha
    refine ⟨course, hc, f, hf, h1, h2, ?_⟩
    rcases (eligible_iff f course).1 he with h | h | h
    · exact Or.inl h
    · exact Or.inr h
    · exact absurd h (hzero f hf)
  · intro course st h
    have hno : ∀ f ∈ faculty, eligible f course = false := by
      intro f hf
      cases he : eligible f course
      · rfl
      · rcases (eligible_iff f course).1 he with h1 | h1 | h1
        · exact absurd (Or.inl h1) (h f hf)
        · exact absurd (Or.inr h1) (h f hf)
        · exact absurd h1 (hzero f hf)
    have hs := scanDays_none_of_no_eligible g timetableId faculty rooms course st hno
    unfold scheduleCourse
    by_cases hlt : (0 : Int) < course.credits
    · rw [whileLoop_break _ _ _ _ _ _ _ hlt hs]
    · rw [whileLoop_done _ _ _ _ _ _ _ hlt]

theorem zeroDepartment_assignments :
    (assignLoop GreedyScheduler.constructor 1 oneCourse zeroDepartmentTeacher oneRoom).assignments
      = [{ timetableId := 1, courseId := 1, facultyId := 1, roomId := 1, dayOfWeek := 1,
           startTime := "09:00", endTime := "10:00" }] :=
  assignments_of_fuel 1 _ _ _ _ _ _ (by decide) (by decide)

/-- Claim C6, at the failing input: with one course of department 5 and a single faculty
row whose department id is the number 0, the test `!f.department_id` accepts the row, so
the loop emits an assignment of that row to the course, although the row has neither the
department of the course nor an unset (`null`) department; the statement of the claim is
false there. -/
theorem C6_zero_department_assigned :
    (assignLoop GreedyScheduler.constructor 1 oneCourse zeroDepartmentTeacher oneRoom).assignments
      = [{ timetableId := 1, courseId := 1, facultyId := 1, roomId := 1, dayOfWeek := 1,
           startTime := "09:00", endTime := "10:00" }] ∧
    (∀ course ∈ oneCourse, ∀ f ∈ zeroDepartmentTeacher,
      f.department_id ≠ course.department_id ∧ f.department_id ≠ none) ∧
    ¬ (∀ a ∈ (assignLoop GreedyScheduler.constructor 1 oneCourse zeroDepartmentTeacher
          oneRoom).assignments,
        ∃ course ∈ oneCourse, ∃ f ∈ zeroDepartmentTeacher,
          a.courseId = course.id ∧ a.facultyId = f.id ∧
          (f.department_id = course.department_id ∨ f.department_id = none)) := by
  refine ⟨zeroDepartment_assignments, by decide, ?_⟩
  rw [zeroDepartment_assignments]
  decide

/-! ## Exhaustion of the grid -/

theorem assignedTo_append (course : Course) (as new : List Assignment) :
    assignedTo course (as ++ new) = assignedTo course as + assignedTo course new := by
  simp [assignedTo, List.countP_append]

theorem assignedTo_of_all (course : Course) (new : List Assignment)
    (h : ∀ a ∈ new, a.courseId = course.id) : assignedTo course new = new.length := by
  unfold assignedTo
  rw [List.countP_eq_length]
  intro a ha
  simpa using h a ha

theorem assignedTo_le_of_extends (course : Course) (st st' : RunState) (h : Extends st st') :
    assignedTo course st.assignments ≤ assignedTo course st'.assignments := by
  obtain ⟨⟨new, hn⟩, -, -⟩ := h
  rw [hn, assignedTo_append]
  exact Nat.le_add_right _ _

/-- A course that ends the course loop with fewer new assignments than its credits finds
no feasible cell in the final schedules. -/
theorem forCourses_short (g : GreedyScheduler) (timetableId : Nat) (faculty : List Faculty)
    (rooms : List Room) (courses : List Course) (st : RunState) (course : Course)
    (hc : course ∈ courses)
    (hshort : (assignedTo course (forCourses g timetableId faculty rooms st courses).assignments
      : Int) < assignedTo course st.assignments + course.credits) :
    ∀ c ∈ cells g, ¬ Feasible faculty rooms course
      (forCourses g timetableId faculty rooms st courses).facultySchedule
      (forCourses g timetableId faculty rooms st courses).roomSchedule
      (slotKey c.1 c.2.start) := by
  induction courses generalizing st with
  | nil => simp at hc
  | cons c0 rest ih =>
    simp only [forCourses, List.foldl_cons] at hshort ⊢
    have hx := forCourses_extends g timetableId faculty rooms rest
      (scheduleCourse g timetableId faculty rooms st c0)
    have hx0 := scheduleCourse_extends g timetableId faculty rooms st c0
    simp only [forCourses] at hx
    by_cases hrest : (assignedTo course
        (List.foldl (scheduleCourse g timetableId faculty rooms)
          (scheduleCourse g timetableId faculty rooms st c0) rest).assignments : Int)
        < assignedTo course (scheduleCourse g timetableId faculty rooms st c0).assignments
          + course.credits
    · by_cases hmem : course ∈ rest
      · exact ih _ hmem hrest
      · have hcc : course = c0 := by
          rcases List.mem_cons.1 hc with h | h
          · exact h
          · exact absurd h hmem
        subst hcc
        obtain ⟨-, -, ⟨new, hn1, hn2, hn3⟩, -, h5⟩ :=
          whileLoop_facts g timetableId faculty rooms course 0 st
        have hle := assignedTo_le_of_extends course _ _ hx
        have hn1' : (scheduleCourse g timetableId faculty rooms st course).assignments
            = st.assignments ++ new := hn1
        have hcount : assignedTo course
            (scheduleCourse g timetableId faculty rooms st course).assignments
            = assignedTo course st.assignments + new.length := by
          rw [hn1', assignedTo_append, assignedTo_of_all course new (fun a ha => (hn3 a ha).1)]
        rcases h5 with ⟨-, -, hinf⟩ | ⟨hge, -⟩
        · intro c hcell
          exact not_feasible_of_extends faculty rooms course _ _ _ hx (hinf c hcell)
        · exfalso
          omega
    · exfalso
      have h1 := assignedTo_le_of_extends course _ _ hx0
      omega

/-- Claim C9: a course is left short only when the grid is exhausted for it. For every
grid (the 5 × 8 grid of the constructor included) and every input, a course of the input
that ends the run with fewer assignments carrying its id than its credits has no cell of
the grid at which, in the final schedules of the run, both a faculty row eligible for it
and a room are free. -/
theorem C9_short_only_when_exhausted (g : GreedyScheduler) (timetableId : Nat)
    (courses : List Course) (faculty : List Faculty) (rooms : List Room) (course : Course)
    (hc : course ∈ courses)
    (hshort : (assignedTo course (assignLoop g timetableId courses faculty rooms).assignments
      : Int) < course.credits) :
    ∀ c ∈ cells g, ¬ Feasible faculty rooms course
      (assignLoop g timetableId courses faculty rooms).facultySchedule
      (assignLoop g timetableId courses faculty rooms).roomSchedule
      (slotKey c.1 c.2.start) := by
  refine forCourses_short g timetableId faculty rooms courses RunState.init course hc ?_
  simpa [assignedTo, RunState.init] using hshort

/-- Witness of C9: a course of department 5 with a single teacher of department 1. -/
theorem C9_short_only_when_exhausted_witness :
    (sampleCourse 1 "Algebra" 5 1 ∈ oneCourse ∧
      (assignedTo (sampleCourse 1 "Algebra" 5 1)
        (assignLoop GreedyScheduler.constructor 1 oneCourse oneTeacher oneRoom).assignments
        : Int) < (sampleCourse 1 "Algebra" 5 1).credits) ∧
    ∀ c ∈ cells GreedyScheduler.constructor,
      ¬ Feasible oneTeacher oneRoom (sampleCourse 1 "Algebra" 5 1)
        (assignLoop GreedyScheduler.constructor 1 oneCourse oneTeacher oneRoom).facultySchedule
        (assignLoop GreedyScheduler.constructor 1 oneCourse oneTeacher oneRoom).roomSchedule
        (slotKey c.1 c.2.start) :=
  have hshort : (assignedTo (sampleCourse 1 "Algebra" 5 1)
      (assignLoop GreedyScheduler.constructor 1 oneCourse oneTeacher oneRoom).assignments
      : Int) < (sampleCourse 1 "Algebra" 5 1).credits := by
    rw [assignments_of_fuel 1 GreedyScheduler.constructor 1 oneCourse oneTeacher oneRoom []
      (by decide) (by decide)]
    decide
  ⟨⟨by decide, hshort⟩,
   C9_short_only_when_exhausted GreedyScheduler.constructor 1 oneCourse oneTeacher oneRoom
    (sampleCourse 1 "Algebra" 5 1) (by decide) hshort⟩

/-! ## First fit -/

theorem free_iff_not_busy (st : RunState) (h : Consistent st) (id : Nat) (key : String) :
    (st.facultySchedule.has id key = false ↔ ¬ facultyBusy st.assignments id key) ∧
    (st.roomSchedule.has id key = false ↔ ¬ roomBusy st.assignments id key) := by
  constructor
  · rw [← h.1 id key]; simp
  · rw [← h.2 id key]; simp

theorem feasible_iff_after (faculty : List Faculty) (rooms : List Room) (course : Course)
    (st : RunState) (h : Consistent st) (key : String) :
    Feasible faculty rooms course st.facultySchedule st.roomSchedule key ↔
      FeasibleAfter faculty rooms course st.assignments key := by
  unfold Feasible FeasibleAfter
  constructor
  · rintro ⟨⟨f, hf, he, hfree⟩, ⟨r, hr, hrfree⟩⟩
    exact ⟨⟨f, hf, he, ((free_iff_not_busy st h _ _).1).1 hfree⟩,
      ⟨r, hr, ((free_iff_not_busy st h _ _).2).1 hrfree⟩⟩
  · rintro ⟨⟨f, hf, he, hfree⟩, ⟨r, hr, hrfree⟩⟩
    exact ⟨⟨f, hf, he, ((free_iff_not_busy st h _ _).1).2 hfree⟩,
      ⟨r, hr, ((free_iff_not_busy st h _ _).2).2 hrfree⟩⟩

/-- The assignment made by the loop body is a first fit after the assignments so far. -/
theorem firstFit_place (g : GreedyScheduler) (timetableId : Nat) (faculty : List Faculty)
    (rooms : List Room) (course : Course) (st : RunState) (before after : List (Nat × TimeSlot))
    (day : Nat) (timeSlot : TimeSlot) (f : Faculty) (r : Room) (hcons : Consistent st)
    (hcells : cells g = before ++ (day, timeSlot) :: after)
    (hbefore : ∀ c ∈ before, ¬ Feasible faculty rooms course st.facultySchedule
      st.roomSchedule (slotKey c.1 c.2.start))
    (hp : Picks faculty rooms course st day timeSlot f r) :
    FirstFit g faculty rooms course st.assignments
      (newAssignment timetableId course day timeSlot f r) := by
  obtain ⟨⟨fs, hf⟩, ⟨rs, hr⟩⟩ := hp
  obtain ⟨f1, f2, hfsplit, hfnot, hfp, -⟩ := List.filter_eq_cons_iff.1 hf
  obtain ⟨r1, r2, hrsplit, hrnot, hrp, -⟩ := List.filter_eq_cons_iff.1 hr
  simp only [Bool.and_eq_true, Bool.not_eq_true', not_and] at hfnot hfp
  simp only [Bool.not_eq_true'] at hrnot hrp
  refine ⟨rfl, ⟨before, timeSlot, after, hcells, rfl, rfl, ?_⟩,
    ⟨f1, f, f2, hfsplit, rfl, hfp.2, ((free_iff_not_busy st hcons _ _).1).1 hfp.1, ?_⟩,
    ⟨r1, r, r2, hrsplit, rfl, ((free_iff_not_busy st hcons _ _).2).1 hrp, ?_, ?_⟩⟩
  · intro c hc hfeas
    exact hbefore c hc ((feasible_iff_after faculty rooms course st hcons _).2 hfeas)
  · rintro x hx ⟨he, hfree⟩
    have h1 := ((free_iff_not_busy st hcons x.id _).1).2 hfree
    have h2 := hfnot x hx h1
    rw [he] at h2
    exact absurd h2 (by simp)
  · intro x hx
    by_contra hfree
    have h1 := ((free_iff_not_busy st hcons x.id
      (slotKey (newAssignment timetableId course day timeSlot f r).dayOfWeek
        (newAssignment timetableId course day timeSlot f r).startTime)).2).2 hfree
    exact hrnot x hx h1
  · intro hsorted x hx hfree
    rw [hrsplit] at hx hsorted
    rcases List.mem_append.1 hx with hx | hx
    · have h1 := ((free_iff_not_busy st hcons x.id
        (slotKey (newAssignment timetableId course day timeSlot f r).dayOfWeek
          (newAssignment timetableId course day timeSlot f r).startTime)).2).2 hfree
      exact absurd h1 (hrnot x hx)
    · rcases List.mem_cons.1 hx with rfl | hx
      · exact le_refl _
      · have := (List.pairwise_append.1 hsorted).2.1
        exact (List.pairwise_cons.1 this).1 x hx

theorem allFirstFit_assignLoop (g : GreedyScheduler) (timetableId : Nat)
    (courses : List Course) (faculty : List Faculty) (rooms : List Room) :
    AllFirstFit g courses faculty rooms (assignLoop g timetableId courses faculty rooms) := by
  have := forCourses_preserves g timetableId faculty rooms courses
    (fun st => Consistent st ∧ AllFirstFit g courses faculty rooms st) ?_
    (fun _ _ _ h => h) RunState.init
    ⟨consistent_init, by intro earlier a later h; simp [RunState.init] at h⟩
  · exact this.2
  · intro course hc st before day ts after f r h hcells hbefore hp
    refine ⟨consistent_place timetableId course day ts f r st h.1, ?_⟩
    intro earlier a later hsplit
    simp only [place] at hsplit
    rcases List.eq_nil_or_concat later with rfl | ⟨later', y, rfl⟩
    · have h1 : st.assignments ++ [newAssignment timetableId course day ts f r]
          = earlier ++ [a] := hsplit
      obtain ⟨h2, h3⟩ := List.append_inj' h1 rfl
      simp only [List.cons.injEq, and_true] at h3
      subst h2 h3
      exact ⟨course, hc, firstFit_place g timetableId faculty rooms course st before after
        day ts f r h.1 hcells hbefore hp⟩
    · have h1 : st.assignments ++ [newAssignment timetableId course day ts f r]
          = (earlier ++ a :: later') ++ [y] := by
        rw [hsplit]; simp
      obtain ⟨h2, -⟩ := List.append_inj' h1 rfl
      exact h.2 earlier a later' h2

/-- Claim C8: first fit. For every grid (the grid of the constructor included) and every
input, each assignment `a` of the output, with `earlier` the assignments emitted before
it, was made for a course of the input such that: the cell of `a` is the first cell in
day-major scan order at which, after `earlier`, some faculty row eligible for the course
and some room are both free; the faculty of `a` is the first row in load order that is
eligible and free at that cell; the room of `a` is the first row in input order that is
free at that cell; and when the rooms are listed by capacity descending, no room free at
that cell has a larger capacity. -/
theorem C8_first_fit (g : GreedyScheduler) (timetableId : Nat) (courses : List Course)
    (faculty : List Faculty) (rooms : List Room) (earlier later : List Assignment)
    (a : Assignment)
    (h : (assignLoop g timetableId courses faculty rooms).assignments
      = earlier ++ a :: later) :
    ∃ course ∈ courses, FirstFit g faculty rooms course earlier a :=
  allFirstFit_assignLoop g timetableId courses faculty rooms earlier a later h

/-- Witness of C8: the second assignment of the two-course run. -/
theorem C8_first_fit_witness :
    (assignLoop GreedyScheduler.constructor 1 twoCourses oneTeacher oneRoom).assignments
      = [{ timetableId := 1, courseId := 1, facultyId := 1, roomId := 1, dayOfWeek := 1,
           startTime := "09:00", endTime := "10:00" }] ++
        { timetableId := 1, courseId := 2, facultyId := 1, roomId := 1, dayOfWeek := 1,
          startTime := "10:00", endTime := "11:00" } :: [] ∧
    ∃ course ∈ twoCourses, FirstFit GreedyScheduler.constructor oneTeacher oneRoom course
      [{ timetableId := 1, courseId := 1, facultyId := 1, roomId := 1, dayOfWeek := 1,
         startTime := "09:00", endTime := "10:00" }]
      { timetableId := 1, courseId := 2, facultyId := 1, roomId := 1, dayOfWeek := 1,
        startTime := "10:00", endTime := "11:00" } :=
  ⟨twoCourses_assignments,
   C8_first_fit GreedyScheduler.constructor 1 twoCourses oneTeacher oneRoom _ [] _
    twoCourses_assignments⟩

/-! ## Scenario A -/

theorem Schedule.has_add_eq (s : Schedule) (id id' : Nat) (key key' : String) :
    (s.add id key).has id' key' = (s.has id' key' || (decide (id' = id) && decide (key' = key))) := by
  rw [Bool.eq_iff_iff, Schedule.has_add]
  simp

/-- The scan stops in the first cell when both filters are non-empty there. -/
theorem scanDays_first (g : GreedyScheduler) (timetableId : Nat) (faculty : List Faculty)
    (rooms : List Room) (course : Course) (st : RunState) (day : Nat) (days : List Nat)
    (timeSlot : TimeSlot) (slots : List TimeSlot) (f : Faculty) (fs : List Faculty) (r : Room)
    (rs : List Room) (hslots : g.timeSlots = timeSlot :: slots)
    (hf : availableFaculty faculty st.facultySchedule course (slotKey day timeSlot.start)
      = f :: fs)
    (hr : availableRooms rooms st.roomSchedule (slotKey day timeSlot.start) = r :: rs) :
    scanDays g timetableId faculty rooms course st (day :: days)
      = some (place timetableId course day timeSlot f r st) := by
  simp only [scanDays, hslots, scanSlots, hf, hr]

theorem scenarioA_assignments (timetableId d1 d2 : Nat) (s1 s2 : TimeSlot) (course : Course)
    (f1 f2 f3 f4 f5 : Faculty) (r1 r2 r3 : Room) (department : Nat)
    (hcredits : course.credits = 3)
    (hcourse : course.department_id = some department)
    (hfaculty : ∀ f ∈ [f1, f2, f3, f4, f5], f.department_id = some department)
    (hfid : [f1.id, f2.id, f3.id, f4.id, f5.id].Nodup)
    (hrid : [r1.id, r2.id, r3.id].Nodup) :
    (assignLoop { timeSlots := [s1, s2], daysOfWeek := [d1, d2] } timetableId [course]
        [f1, f2, f3, f4, f5] [r1, r2, r3]).assignments
      = [newAssignment timetableId course d1 s1 f1 r1,
         newAssignment timetableId course d1 s1 f2 r2,
         newAssignment timetableId course d1 s1 f3 r3] := by
  have he : ∀ f ∈ [f1, f2, f3, f4, f5], eligible f course = true := by
    intro f hf
    rw [eligible_iff, hfaculty f hf, hcourse]
    exact Or.inl rfl
  simp only [List.mem_cons, List.mem_singleton, List.not_mem_nil, or_false,
    forall_eq_or_imp, forall_eq] at he
  obtain ⟨he1, he2, he3, he4, he5⟩ := he
  simp only [List.nodup_cons, List.mem_cons, List.mem_singleton, List.not_mem_nil, not_or,
    not_false_eq_true, List.nodup_nil, and_true, or_false] at hfid hrid
  obtain ⟨⟨h12, h13, h14, h15⟩, ⟨h23, h24, h25⟩, ⟨h34, h35⟩, h45⟩ := hfid
  obtain ⟨⟨k12, k13⟩, k23⟩ := hrid
  have step1 := scanDays_first { timeSlots := [s1, s2], daysOfWeek := [d1, d2] } timetableId
    [f1, f2, f3, f4, f5] [r1, r2, r3] course RunState.init d1 [d2] s1 [s2] f1 [f2, f3, f4, f5]
    r1 [r2, r3] rfl
    (by simp [availableFaculty, RunState.init, Schedule.has_empty, he1, he2, he3, he4, he5])
    (by simp [availableRooms, RunState.init, Schedule.has_empty])
  have step2 := scanDays_first { timeSlots := [s1, s2], daysOfWeek := [d1, d2] } timetableId
    [f1, f2, f3, f4, f5] [r1, r2, r3] course
    (place timetableId course d1 s1 f1 r1 RunState.init) d1 [d2] s1 [s2] f2 [f3, f4, f5]
    r2 [r3] rfl
    (by simp [availableFaculty, place, RunState.init, Schedule.has_add_eq, Schedule.has_empty,
          he1, he2, he3, he4, he5, Ne.symm h12, Ne.symm h13, Ne.symm h14, Ne.symm h15])
    (by simp [availableRooms, place, RunState.init, Schedule.has_add_eq, Schedule.has_empty,
          Ne.symm k12, Ne.symm k13])
  have step3 := scanDays_first { timeSlots := [s1, s2], daysOfWeek := [d1, d2] } timetableId
    [f1, f2, f3, f4, f5] [r1, r2, r3] course
    (place timetableId course d1 s1 f2 r2 (place timetableId course d1 s1 f1 r1 RunState.init))
    d1 [d2] s1 [s2] f3 [f4, f5] r3 [] rfl
    (by simp [availableFaculty, place, RunState.init, Schedule.has_add_eq, Schedule.has_empty,
          he1, he2, he3, he4, he5, Ne.symm h12, Ne.symm h13, Ne.symm h14, Ne.symm h15,
          Ne.symm h23, Ne.symm h24, Ne.symm h25])
    (by simp [availableRooms, place, RunState.init, Schedule.has_add_eq, Schedule.has_empty,
          Ne.symm k12, Ne.symm k13, Ne.symm k23])
  simp only [assignLoop, forCourses, List.foldl_cons, List.foldl_nil, scheduleCourse]
  rw [whileLoop_step _ _ _ _ _ _ _ _ (by rw [hcredits]; norm_num) step1,
    whileLoop_step _ _ _ _ _ _ _ _ (by rw [hcredits]; norm_num) step2,
    whileLoop_step _ _ _ _ _ _ _ _ (by rw [hcredits]; norm_num) step3,
    whileLoop_done _ _ _ _ _ _ _ (by rw [hcredits]; norm_num)]
  simp [place, RunState.init]

/-- Claim C5, as the code has it: in scenario A (one course with 3 credits in a
department, five faculty rows all of that department with distinct ids, three rooms with
distinct ids listed by strictly descending capacity, a grid of two days and two slots)
the loop emits exactly three assignments, all three in the first cell (day 1, slot 1):
every new credit restarts the scan at the first cell, where the next faculty row in load
order and the next-largest room are still free. The k-th assignment uses the k-th faculty
row and the k-th room, which is the largest room still free at that cell. -/
theorem C5_scenario_A (timetableId d1 d2 : Nat) (s1 s2 : TimeSlot) (course : Course)
    (f1 f2 f3 f4 f5 : Faculty) (r1 r2 r3 : Room) (department : Nat)
    (hcredits : course.credits = 3)
    (hcourse : course.department_id = some department)
    (hfaculty : ∀ f ∈ [f1, f2, f3, f4, f5], f.department_id = some department)
    (hfid : [f1.id, f2.id, f3.id, f4.id, f5.id].Nodup)
    (hrid : [r1.id, r2.id, r3.id].Nodup)
    (hcap : r1.capacity > r2.capacity ∧ r2.capacity > r3.capacity) :
    (assignLoop { timeSlots := [s1, s2], daysOfWeek := [d1, d2] } timetableId [course]
        [f1, f2, f3, f4, f5] [r1, r2, r3]).assignments
      = [newAssignment timetableId course d1 s1 f1 r1,
         newAssignment timetableId course d1 s1 f2 r2,
         newAssignment timetableId course d1 s1 f3 r3] ∧
    (∀ r ∈ [r1, r2, r3], r.capacity ≤ r1.capacity) ∧
    (∀ r ∈ [r2, r3], r.capacity ≤ r2.capacity) := by
  refine ⟨scenarioA_assignments timetableId d1 d2 s1 s2 course f1 f2 f3 f4 f5 r1 r2 r3
    department hcredits hcourse hfaculty hfid hrid, ?_, ?_⟩
  · intro r hr
    simp only [List.mem_cons, List.mem_singleton, List.not_mem_nil, or_false] at hr
    rcases hr with rfl | rfl | rfl <;> omega
  · intro r hr
    simp only [List.mem_cons, List.mem_singleton, List.not_mem_nil, or_false] at hr
    rcases hr with rfl | rfl <;> omega

/-- Witness of C5: the scenario with ids 1 to 5, capacities 90, 60, 30, days 1 and 2. -/
theorem C5_scenario_A_witness :
    ((sampleCourse 1 "Algebra" 7 3).credits = 3 ∧
      (sampleCourse 1 "Algebra" 7 3).department_id = some 7 ∧
      (∀ f ∈ [(⟨1, some 7⟩ : Faculty), ⟨2, some 7⟩, ⟨3, some 7⟩, ⟨4, some 7⟩, ⟨5, some 7⟩],
        f.department_id = some 7) ∧
      [(1 : Nat), 2, 3, 4, 5].Nodup ∧ [(1 : Nat), 2, 3].Nodup ∧
      ((90 : Int) > 60 ∧ (60 : Int) > 30)) ∧
    (assignLoop { timeSlots := [⟨"09:00", "10:00"⟩, ⟨"10:00", "11:00"⟩], daysOfWeek := [1, 2] }
        1 [sampleCourse 1 "Algebra" 7 3]
        [⟨1, some 7⟩, ⟨2, some 7⟩, ⟨3, some 7⟩, ⟨4, some 7⟩, ⟨5, some 7⟩]
        [⟨1, 90⟩, ⟨2, 60⟩, ⟨3, 30⟩]).assignments
      = [newAssignment 1 (sampleCourse 1 "Algebra" 7 3) 1 ⟨"09:00", "10:00"⟩ ⟨1, some 7⟩ ⟨1, 90⟩,
         newAssignment 1 (sampleCourse 1 "Algebra" 7 3) 1 ⟨"09:00", "10:00"⟩ ⟨2, some 7⟩ ⟨2, 60⟩,
         newAssignment 1 (sampleCourse 1 "Algebra" 7 3) 1 ⟨"09:00", "10:00"⟩ ⟨3, some 7⟩ ⟨3, 30⟩] ∧
    (∀ r ∈ [(⟨1, 90⟩ : Room), ⟨2, 60⟩, ⟨3, 30⟩], r.capacity ≤ (⟨1, 90⟩ : Room).capacity) ∧
    (∀ r ∈ [(⟨2, 60⟩ : Room), ⟨3, 30⟩], r.capacity ≤ (⟨2, 60⟩ : Room).capacity) :=
  ⟨⟨by decide, by decide, by decide, by decide, by decide, by decide⟩,
   C5_scenario_A 1 1 2 ⟨"09:00", "10:00"⟩ ⟨"10:00", "11:00"⟩ (sampleCourse 1 "Algebra" 7 3)
    ⟨1, some 7⟩ ⟨2, some 7⟩ ⟨3, some 7⟩ ⟨4, some 7⟩ ⟨5, some 7⟩ ⟨1, 90⟩ ⟨2, 60⟩ ⟨3, 30⟩ 7
    (by decide) (by decide) (by decide) (by decide) (by decide) (by decide)⟩

theorem scenario_assignments :
    (assignLoop scenarioGrid 1 [scenarioCourse] scenarioFaculty scenarioRooms).assignments
      = scenarioOutput :=
  assignments_of_fuel 3 _ _ _ _ _ _ (by decide) (by decide)

/-- Counterexample to C5 as stated: in scenario A the three assignments are not placed at
(day 1, slot 1), (day 1, slot 2), (day 2, slot 1); the second one is again at
(day 1, slot 1). -/
theorem C5_counterexample :
    ¬ ∃ a1 a2 a3,
      (assignLoop scenarioGrid 1 [scenarioCourse] scenarioFaculty scenarioRooms).assignments
        = [a1, a2, a3] ∧
      (a1.dayOfWeek = 1 ∧ a1.startTime = "09:00") ∧
      (a2.dayOfWeek = 1 ∧ a2.startTime = "10:00") ∧
      (a3.dayOfWeek = 2 ∧ a3.startTime = "09:00") := by
  rw [scenario_assignments]
  rintro ⟨a1, a2, a3, h, -, ⟨-, h2⟩, -⟩
  simp only [scenarioOutput, List.cons.injEq, and_true] at h
  obtain ⟨-, rfl, -⟩ := h
  exact absurd h2 (by decide)

/-! ## The transaction discipline, for any client -/

theorem triple_bind {σ α β : Type} {P : Exec σ → Prop} {m : DbM σ α}
    {Q : α → Exec σ → Prop} {E : Exec σ → Prop} {f : α → DbM σ β} {R : β → Exec σ → Prop}
    (hm : Triple P m Q E) (hf : ∀ a, Triple (Q a) (f a) R E) :
    Triple P (m >>= f) R E := by
  intro e he
  have h1 := hm e he
  show match DbM.bind m f e with
    | (.ok a, e') => R a e'
    | (.error _, e') => E e'
  unfold DbM.bind
  rcases hme : m e with ⟨_ | a, e'⟩
  · rw [hme] at h1
    exact h1
  · rw [hme] at h1
    exact hf a e' h1

theorem triple_pure {σ α : Type} (a : α) (Q : α → Exec σ → Prop) (E : Exec σ → Prop) :
    Triple (Q a) (pure a : DbM σ α) Q E := by
  intro e he
  exact he

theorem triple_weaken {σ α : Type} {P P' : Exec σ → Prop} {m : DbM σ α}
    {Q Q' : α → Exec σ → Prop} {E E' : Exec σ → Prop} (h : Triple P m Q E)
    (hP : ∀ e, P' e → P e) (hQ : ∀ a e, Q a e → Q' a e) (hE : ∀ e, E e → E' e) :
    Triple P' m Q' E' := by
  intro e he
  have h1 := h e (hP e he)
  rcases hme : m e with ⟨_ | a, e'⟩
  · rw [hme] at h1; exact hE e' h1
  · rw [hme] at h1; exact hQ a e' h1

theorem query_log {σ : Type} (c : Client σ) (s : Stmt) (e : Exec σ) :
    (∃ r st, c.query s e.store = (.ok r, st) ∧
      query c s e = (.ok r, { e with store := st, log := e.log ++ [(s, true)] })) ∨
    (∃ err st, c.query s e.store = (.error err, st) ∧
      query c s e = (.error err, { e with store := st, log := e.log ++ [(s, false)] })) := by
  unfold query
  rcases h : c.query s e.store with ⟨err | r, st⟩
  · exact Or.inr ⟨err, st, rfl, rfl⟩
  · exact Or.inl ⟨r, st, rfl, rfl⟩

theorem progress_snoc {σ : Type} (l0 : List (Stmt × Bool)) (e e' : Exec σ) (s : Stmt)
    (hs : s ≠ Stmt.commit) (h : Progress l0 e) (hl : e'.log = e.log ++ [(s, true)]) :
    Progress l0 e' := by
  obtain ⟨new, hn, hall⟩ := h
  refine ⟨new ++ [(s, true)], by rw [hl, hn, List.append_assoc], ?_⟩
  intro x hx
  rcases List.mem_append.1 hx with hx | hx
  · exact hall x hx
  · rw [List.mem_singleton] at hx; subst hx; exact ⟨rfl, hs⟩

theorem failed_snoc {σ : Type} (l0 : List (Stmt × Bool)) (e e' : Exec σ) (s : Stmt)
    (h : Progress l0 e) (hl : e'.log = e.log ++ [(s, false)]) : Failed l0 e' := by
  obtain ⟨new, hn, hall⟩ := h
  exact ⟨new, s, by rw [hl, hn], hall⟩

/-- A statement other than `COMMIT` extends the log by one entry. -/
theorem query_progress {σ : Type} (c : Client σ) (s : Stmt) (hs : s ≠ Stmt.commit)
    (l0 : List (Stmt × Bool)) :
    Triple (Progress l0) (query c s) (fun _ => Progress l0) (Failed l0) := by
  intro e he
  rcases query_log c s e with ⟨r, st, -, h⟩ | ⟨err, st, -, h⟩
  · rw [h]; exact progress_snoc l0 e _ s hs he rfl
  · rw [h]; exact failed_snoc l0 e _ s he rfl

theorem query_commit {σ : Type} (c : Client σ) (l0 : List (Stmt × Bool)) :
    Triple (Progress l0) (query c Stmt.commit) (fun _ => Committed l0) (Failed l0) := by
  intro e he
  rcases query_log c Stmt.commit e with ⟨r, st, -, h⟩ | ⟨err, st, -, h⟩
  · rw [h]
    obtain ⟨new, hn, hall⟩ := he
    exact ⟨new, by simp [hn], hall⟩
  · rw [h]; exact failed_snoc l0 e _ _ he rfl

theorem warnAll_progress {σ : Type} (ws : List String) (l0 : List (Stmt × Bool)) :
    Triple (@Progress σ l0) (warnAll ws) (fun _ => Progress l0) (Failed l0) := by
  intro e he
  exact he

theorem insertAll_progress {σ : Type} (c : Client σ) (as : List Assignment)
    (l0 : List (Stmt × Bool)) :
    Triple (Progress l0) (insertAll c as) (fun _ => Progress l0) (Failed l0) := by
  induction as with
  | nil => intro e he; exact he
  | cons a rest ih =>
    exact triple_bind (query_progress c _ (by simp) l0) (fun _ => ih)

/-- The `try` block either commits as its last statement or stops at its first rejected
statement, before any `COMMIT` resolved. -/
theorem tryBlock_log {σ : Type} (c : Client σ) (g : GreedyScheduler) (semester : String)
    (year : Int) (timetableName : String) (l0 : List (Stmt × Bool)) :
    Triple (fun e => e.log = l0) (tryBlock c g semester year timetableName)
      (fun _ => Committed l0) (Failed l0) := by
  have start : ∀ e : Exec σ, e.log = l0 → Progress l0 e :=
    fun e he => ⟨[], by simp [he], by simp⟩
  unfold tryBlock
  refine triple_weaken (P := Progress l0) ?_ start (fun _ _ h => h) (fun _ h => h)
  refine triple_bind (query_progress c _ (by simp) l0) fun _ => ?_
  refine triple_bind (query_progress c _ (by simp) l0) fun timetableId => ?_
  refine triple_bind (query_progress c _ (by simp) l0) fun _ => ?_
  refine triple_bind (query_progress c _ (by simp) l0) fun courses => ?_
  refine triple_bind (query_progress c _ (by simp) l0) fun faculty => ?_
  refine triple_bind (query_progress c _ (by simp) l0) fun rooms => ?_
  refine triple_bind (warnAll_progress _ l0) fun _ => ?_
  refine triple_bind (insertAll_progress c _ l0) fun _ => ?_
  refine triple_bind (query_commit c l0) fun _ => ?_
  intro e he
  exact he

/-- The log of a run: either every statement resolved and the last one is `COMMIT`, or the
first rejected statement is followed by `ROLLBACK` and nothing else. -/
theorem generateTimetable_log {σ : Type} (c : Client σ) (g : GreedyScheduler)
    (semester : String) (year : Int) (timetableName : String) (e : Exec σ) :
    (∃ r new, (generateTimetable c g semester year timetableName e).1 = .ok r ∧
      (generateTimetable c g semester year timetableName e).2.log
        = e.log ++ new ++ [(Stmt.commit, true)] ∧
      ∀ x ∈ new, x.2 = true ∧ x.1 ≠ Stmt.commit) ∨
    (∃ err new s b, (generateTimetable c g semester year timetableName e).1 = .error err ∧
      (generateTimetable c g semester year timetableName e).2.log
        = e.log ++ new ++ [(s, false), (Stmt.rollback, b)] ∧
      ∀ x ∈ new, x.2 = true ∧ x.1 ≠ Stmt.commit) := by
  have h := tryBlock_log c g semester year timetableName e.log e rfl
  unfold generateTimetable
  rcases ht : tryBlock c g semester year timetableName e with ⟨err | r, e'⟩
  · rw [ht] at h
    obtain ⟨new, s, hl, hall⟩ := h
    rcases query_log c Stmt.rollback e' with ⟨r, st, -, hq⟩ | ⟨err', st, -, hq⟩
    · simp only [hq]
      exact Or.inr ⟨err, new, s, true, rfl, by simp [hl], hall⟩
    · simp only [hq]
      exact Or.inr ⟨err', new, s, false, rfl, by simp [hl], hall⟩
  · rw [ht] at h
    obtain ⟨new, hl, hall⟩ := h
    exact Or.inl ⟨r, new, rfl, hl, hall⟩

/-! ## The transaction discipline, against the store -/

theorem Store.query_active (s : Stmt) (hs : s.isData = true) (db : Store) (w : Tables)
    (hw : db.txn = Txn.active w) :
    Store.query s db =
      if db.fault db.issued then
        (.error "connection failure",
          { db with issued := db.issued + 1, nextId := db.nextId + s.bump, txn := .aborted })
      else
        match w.apply db.nextId s with
        | .ok (r, t) =>
          (.ok r, { db with issued := db.issued + 1, nextId := db.nextId + s.bump,
                            txn := .active t })
        | .error err =>
          (.error err, { db with issued := db.issued + 1, nextId := db.nextId + s.bump,
                                 txn := .aborted }) := by
  unfold Store.query
  cases s <;> simp_all [Stmt.isData]

/-- A data statement inside a transaction: it resolves and changes the working tables by
`Tables.apply`, or it is rejected and the transaction is aborted. -/
theorem store_data_cases (s : Stmt) (hs : s.isData = true) (e : Exec Store) (w : Tables)
    (hw : e.store.txn = Txn.active w) :
    (∃ r t e', w.apply e.store.nextId s = .ok (r, t) ∧
      query storeClient s e = (.ok r, e') ∧ e'.store.committed = e.store.committed ∧
      e'.store.txn = Txn.active t) ∨
    (∃ err e', query storeClient s e = (.error err, e') ∧
      e'.store.committed = e.store.committed ∧ e'.store.txn = Txn.aborted) := by
  unfold query
  simp only [storeClient]
  rw [Store.query_active s hs e.store w hw]
  by_cases hfault : e.store.fault e.store.issued = true
  · simp only [hfault, if_true]
    exact Or.inr ⟨_, _, rfl, rfl, rfl⟩
  · simp only [hfault]
    rcases happ : w.apply e.store.nextId s with err | ⟨r, t⟩
    · exact Or.inr ⟨_, _, rfl, rfl, rfl⟩
    · exact Or.inl ⟨r, t, _, rfl, rfl, rfl, rfl⟩

theorem store_begin_cases (e : Exec Store) :
    (∃ w e', query storeClient Stmt.begin e = (.ok (), e') ∧
      e'.store.committed = e.store.committed ∧ e'.store.txn = Txn.active w) ∨
    (∃ err e', query storeClient Stmt.begin e = (.error err, e') ∧
      e'.store.committed = e.store.committed ∧ ∀ w, e'.store.txn ≠ Txn.active w) := by
  unfold query
  simp only [storeClient, Store.query]
  by_cases hfault : e.store.fault e.store.issued = true
  · simp only [hfault, if_true]
    refine Or.inr ⟨_, _, rfl, rfl, ?_⟩
    intro w
    cases e.store.txn <;> simp
  · simp only [hfault]
    rcases htxn : e.store.txn with _ | w | _
    · exact Or.inl ⟨e.store.committed, _, rfl, rfl, rfl⟩
    · exact Or.inl ⟨w, _, rfl, rfl, rfl⟩
    · refine Or.inr ⟨_, _, rfl, rfl, ?_⟩
      intro w
      simp [htxn]

theorem store_commit_cases (e : Exec Store) (w : Tables) (hw : e.store.txn = Txn.active w) :
    (∃ e', query storeClient Stmt.commit e = (.ok (), e') ∧ e'.store.committed = w ∧
      e'.store.txn = Txn.idle) ∨
    (∃ err e', query storeClient Stmt.commit e = (.error err, e') ∧
      e'.store.committed = e.store.committed ∧ e'.store.txn = Txn.aborted) := by
  unfold query
  simp only [storeClient, Store.query]
  by_cases hfault : e.store.fault e.store.issued = true
  · simp only [hfault, if_true, hw]
    exact Or.inr ⟨_, _, rfl, rfl, rfl⟩
  · simp only [hfault, hw]
    exact Or.inl ⟨_, rfl, rfl, rfl⟩

theorem store_rollback_cases (e : Exec Store) (c0 : Tables) (h : Untouched c0 e) :
    ∃ r e', query storeClient Stmt.rollback e = (r, e') ∧ Untouched c0 e' := by
  unfold query
  simp only [storeClient, Store.query]
  obtain ⟨hc, hn⟩ := h
  by_cases hfault : e.store.fault e.store.issued = true
  · simp only [hfault, if_true]
    refine ⟨_, _, rfl, hc, ?_⟩
    intro w
    rcases htxn : e.store.txn with _ | w' | _
    · simp
    · exact absurd htxn (hn w')
    · simp
  · simp only [hfault]
    exact ⟨_, _, rfl, hc, by intro w; simp⟩

theorem store_begin_triple (c0 : Tables) :
    Triple (fun e => e.store.committed = c0) (query storeClient Stmt.begin)
      (fun _ => InTxn c0) (Untouched c0) := by
  intro e he
  rcases store_begin_cases e with ⟨w, e', hq, hc, ht⟩ | ⟨err, e', hq, hc, ht⟩
  · rw [hq]; exact ⟨hc.trans he, w, ht⟩
  · rw [hq]; exact ⟨hc.trans he, ht⟩

theorem store_data_triple (c0 : Tables) (s : Stmt) (hs : s.isData = true) :
    Triple (InTxn c0) (query storeClient s) (fun _ => InTxn c0) (Untouched c0) := by
  rintro e ⟨he, w, hw⟩
  rcases store_data_cases s hs e w hw with ⟨r, t, e', -, hq, hc, ht⟩ | ⟨err, e', hq, hc, ht⟩
  · rw [hq]; exact ⟨hc.trans he, t, ht⟩
  · rw [hq]; exact ⟨hc.trans he, by intro w; simp [ht]⟩

theorem store_commit_triple (c0 : Tables) :
    Triple (InTxn c0) (query storeClient Stmt.commit) (fun _ _ => True) (Untouched c0) := by
  rintro e ⟨he, w, hw⟩
  rcases store_commit_cases e w hw with ⟨e', hq, -, -⟩ | ⟨err, e', hq, hc, ht⟩
  · rw [hq]; trivial
  · rw [hq]; exact ⟨hc.trans he, by intro w; simp [ht]⟩

theorem store_insertAll_triple (c0 : Tables) (as : List Assignment) :
    Triple (InTxn c0) (insertAll storeClient as) (fun _ => InTxn c0) (Untouched c0) := by
  induction as with
  | nil => intro e he; exact he
  | cons a rest ih => exact triple_bind (store_data_triple c0 _ rfl) (fun _ => ih)

/-- A `try` block that throws leaves the committed tables as they were, with no open
transaction that could still commit. -/
theorem tryBlock_store (g : GreedyScheduler) (semester : String) (year : Int)
    (timetableName : String) (c0 : Tables) :
    Triple (fun e => e.store.committed = c0)
      (tryBlock storeClient g semester year timetableName) (fun _ _ => True)
      (Untouched c0) := by
  unfold tryBlock
  refine triple_bind (store_begin_triple c0) fun _ => ?_
  refine triple_bind (store_data_triple c0 _ rfl) fun timetableId => ?_
  refine triple_bind (store_data_triple c0 _ rfl) fun _ => ?_
  refine triple_bind (store_data_triple c0 _ rfl) fun courses => ?_
  refine triple_bind (store_data_triple c0 _ rfl) fun faculty => ?_
  refine triple_bind (store_data_triple c0 _ rfl) fun rooms => ?_
  refine triple_bind (Q := fun _ => InTxn c0) (fun e he => he) fun _ => ?_
  refine triple_bind (store_insertAll_triple c0 _) fun _ => ?_
  refine triple_bind (store_commit_triple c0) fun _ => ?_
  intro e _
  trivial

/-- A run that fails against the store leaves the committed tables as they were. -/
theorem generateTimetable_store_error (g : GreedyScheduler) (semester : String) (year : Int)
    (timetableName : String) (e : Exec Store) (err : String)
    (h : (generateTimetable storeClient g semester year timetableName e).1 = .error err) :
    Untouched e.store.committed
      (generateTimetable storeClient g semester year timetableName e).2 := by
  have ht := tryBlock_store g semester year timetableName e.store.committed e rfl
  unfold generateTimetable at h ⊢
  rcases hb : tryBlock storeClient g semester year timetableName e with ⟨err1 | r, e'⟩
  · rw [hb] at ht
    obtain ⟨r, e'', hq, hu⟩ := store_rollback_cases e' e.store.committed ht
    simp only [hq]
    cases r <;> exact hu
  · rw [hb] at h
    simp at h

/-- Claim C2: rollback on failure. For every client and every run in which some statement
is rejected (the statements after `BEGIN` included: the insert of the timetable, the
deactivation, the three loads, any insert of an assignment, `COMMIT`): the run fails with
an error; the log of the run is a sequence of resolved statements, then the first rejected
statement, then `ROLLBACK` and nothing more; no `COMMIT` resolved. And against the
transactional store a failed run leaves the committed tables exactly as they were (no
timetable row, no assignment row, no deactivation) with no transaction left open. -/
theorem C2_rollback_on_failure {σ : Type} (c : Client σ) (g : GreedyScheduler)
    (semester : String) (year : Int) (timetableName : String) (e : Exec σ) (s : Stmt)
    (hfail : (s, false) ∈
      (generateTimetable c g semester year timetableName e).2.log.drop e.log.length) :
    (∃ err, (generateTimetable c g semester year timetableName e).1 = .error err) ∧
    (∃ resolved s' b,
      (generateTimetable c g semester year timetableName e).2.log
        = e.log ++ resolved ++ [(s', false), (Stmt.rollback, b)] ∧
      ∀ x ∈ resolved, x.2 = true) ∧
    (Stmt.commit, true) ∉
      (generateTimetable c g semester year timetableName e).2.log.drop e.log.length ∧
    (∀ (e0 : Exec Store) (err : String),
      (generateTimetable storeClient g semester year timetableName e0).1 = .error err →
      (generateTimetable storeClient g semester year timetableName e0).2.store.committed
        = e0.store.committed ∧
      ∀ w, (generateTimetable storeClient g semester year timetableName e0).2.store.txn
        ≠ Txn.active w) := by
  refine ⟨?_, ?_, ?_, ?_⟩
  · rcases generateTimetable_log c g semester year timetableName e with
      ⟨r, new, -, hl, hall⟩ | ⟨err, new, s', b, hr, -, -⟩
    · exfalso
      rw [hl, List.append_assoc, List.drop_left] at hfail
      rcases List.mem_append.1 hfail with hx | hx
      · have := (hall _ hx).1
        simp at this
      · simp at hx
    · exact ⟨err, hr⟩
  · rcases generateTimetable_log c g semester year timetableName e with
      ⟨r, new, -, hl, hall⟩ | ⟨err, new, s', b, -, hl, hall⟩
    · exfalso
      rw [hl, List.append_assoc, List.drop_left] at hfail
      rcases List.mem_append.1 hfail with hx | hx
      · have := (hall _ hx).1
        simp at this
      · simp at hx
    · exact ⟨new, s', b, hl, fun x hx => (hall x hx).1⟩
  · rcases generateTimetable_log c g semester year timetableName e with
      ⟨r, new, -, hl, hall⟩ | ⟨err, new, s', b, -, hl, hall⟩
    · exfalso
      rw [hl, List.append_assoc, List.drop_left] at hfail
      rcases List.mem_append.1 hfail with hx | hx
      · have := (hall _ hx).1
        simp at this
      · simp at hx
    · rw [hl, List.append_assoc, List.drop_left]
      intro hmem
      rcases List.mem_append.1 hmem with hx | hx
      · exact (hall _ hx).2 rfl
      · simp at hx
  · intro e0 err h
    exact generateTimetable_store_error g semester year timetableName e0 err h

/-- Witness of C2: against the sample store the insert of the timetable is rejected. -/
theorem C2_rollback_on_failure_witness :
    (Stmt.insertTimetable "Plan" "Fall" 2024 true, false) ∈
      (generateTimetable storeClient GreedyScheduler.constructor "Fall" 2024 "Plan"
        (Exec.start (sampleStore 1))).2.log.drop (Exec.start (sampleStore 1)).log.length ∧
    (∃ resolved s' b,
      (generateTimetable storeClient GreedyScheduler.constructor "Fall" 2024 "Plan"
        (Exec.start (sampleStore 1))).2.log
        = (Exec.start (sampleStore 1)).log ++ resolved ++ [(s', false), (Stmt.rollback, b)] ∧
      ∀ x ∈ resolved, x.2 = true) :=
  ⟨by decide,
   (C2_rollback_on_failure storeClient GreedyScheduler.constructor "Fall" 2024 "Plan"
      (Exec.start (sampleStore 1)) (Stmt.insertTimetable "Plan" "Fall" 2024 true)
      (by decide)).2.1⟩

/-! ## The single active timetable -/

/-- Deactivating the others after appending a fresh active row leaves that row as the
only active one of its term. -/
theorem activeFor_deactivate (name semester : String) (year : Int) (n : Nat)
    (old : List TimetableRow) (hold : ∀ r ∈ old, r.id ≠ n) :
    activeFor semester year
      ((old ++ [({ id := n, name := name, semester := semester, year := year,
                   is_active := true } : TimetableRow)]).map fun (r : TimetableRow) =>
        if r.semester = semester ∧ r.year = year ∧ r.id ≠ n then
          { r with is_active := false } else r)
      = [{ id := n, name := name, semester := semester, year := year, is_active := true }] := by
  unfold activeFor
  rw [List.map_append, List.filter_append]
  have h1 : (old.map fun (r : TimetableRow) =>
        if r.semester = semester ∧ r.year = year ∧ r.id ≠ n then
          { r with is_active := false } else r).filter
        (fun r => r.semester == semester && r.year == year && r.is_active) = [] := by
    rw [List.filter_eq_nil_iff]
    intro r hr
    obtain ⟨r0, hr0, rfl⟩ := List.mem_map.1 hr
    by_cases hc : r0.semester = semester ∧ r0.year = year ∧ r0.id ≠ n
    · simp [hc]
    · rw [if_neg hc]
      have hid := hold r0 hr0
      simp only [hid, not_false_eq_true, and_true, not_and] at hc
      intro hcontra
      simp only [Bool.and_eq_true, beq_iff_eq] at hcontra
      exact hc hcontra.1.1 hcontra.1.2 hid
  rw [h1]
  simp

theorem store_begin_working :
    Triple (fun _ => True) (query storeClient Stmt.begin)
      (fun _ => Working fun _ => True) (fun _ => True) := by
  intro e _
  rcases store_begin_cases e with ⟨w, e', hq, -, ht⟩ | ⟨err, e', hq, -, -⟩
  · rw [hq]; exact ⟨w, ht, trivial⟩
  · rw [hq]; trivial

theorem store_insertTimetable_working (name semester : String) (year : Int) :
    Triple (Working fun _ => True)
      (query storeClient (Stmt.insertTimetable name semester year true))
      (fun n => Working (Fresh name semester year n)) (fun _ => True) := by
  rintro e ⟨w, hw, -⟩
  rcases store_data_cases (Stmt.insertTimetable name semester year true) rfl e w hw with ⟨r, t, e', happ, hq, -, ht⟩ | ⟨err, e', hq, -, -⟩
  · rw [hq]
    simp only [Tables.apply] at happ
    by_cases hany : (w.timetables.any fun r => r.id == e.store.nextId) = true
    · rw [if_pos hany] at happ
      simp at happ
    · rw [if_neg hany] at happ
      simp only [Except.ok.injEq, Prod.mk.injEq] at happ
      obtain ⟨rfl, rfl⟩ := happ
      refine ⟨_, ht, w.timetables, rfl, ?_⟩
      intro r hr hid
      exact hany (List.any_eq_true.2 ⟨r, hr, by simpa using hid⟩)
  · rw [hq]; trivial

theorem store_deactivate_working (name semester : String) (year : Int) (n : Nat) :
    Triple (Working (Fresh name semester year n))
      (query storeClient (Stmt.deactivateOthers semester year n))
      (fun _ => Working (OnlyActive name semester year n)) (fun _ => True) := by
  rintro e ⟨w, hw, old, hrows, hold⟩
  rcases store_data_cases (Stmt.deactivateOthers semester year n) rfl e w hw with ⟨r, t, e', happ, hq, -, ht⟩ | ⟨err, e', hq, -, -⟩
  · rw [hq]
    simp only [Tables.apply, Except.ok.injEq, Prod.mk.injEq] at happ
    obtain ⟨-, rfl⟩ := happ
    refine ⟨_, ht, ?_⟩
    simp only [OnlyActive, hrows]
    exact activeFor_deactivate name semester year n old hold
  · rw [hq]; trivial

/-- The loads and the inserts of assignments do not touch `timetables`. -/
theorem store_other_working (T : List TimetableRow → Prop) (s : Stmt)
    (hs : s = Stmt.selectFaculty ∨ s = Stmt.selectRooms ∨
      (∃ semester year, s = Stmt.selectCourses semester year) ∨
      (∃ a, s = Stmt.insertSlot a)) :
    Triple (Working T) (query storeClient s) (fun _ => Working T) (fun _ => True) := by
  rintro e ⟨w, hw, hT⟩
  have hdata : s.isData = true := by
    rcases hs with rfl | rfl | ⟨_, _, rfl⟩ | ⟨_, rfl⟩ <;> rfl
  rcases store_data_cases s hdata e w hw with ⟨r, t, e', happ, hq, -, ht⟩ | ⟨err, e', hq, -, -⟩
  · rw [hq]
    refine ⟨t, ht, ?_⟩
    rcases hs with rfl | rfl | ⟨_, _, rfl⟩ | ⟨_, rfl⟩ <;>
      (simp only [Tables.apply, Except.ok.injEq, Prod.mk.injEq] at happ
       obtain ⟨-, rfl⟩ := happ
       exact hT)
  · rw [hq]; trivial

theorem store_insertAll_working (T : List TimetableRow → Prop) (as : List Assignment) :
    Triple (Working T) (insertAll storeClient as) (fun _ => Working T) (fun _ => True) := by
  induction as with
  | nil => intro e he; exact he
  | cons a rest ih =>
    exact triple_bind (store_other_working T _ (Or.inr (Or.inr (Or.inr ⟨a, rfl⟩))))
      (fun _ => ih)

theorem store_commit_working (T : List TimetableRow → Prop) :
    Triple (Working T) (query storeClient Stmt.commit)
      (fun _ e => T e.store.committed.timetables) (fun _ => True) := by
  rintro e ⟨w, hw, hT⟩
  rcases store_commit_cases e w hw with ⟨e', hq, hc, -⟩ | ⟨err, e', hq, -, -⟩
  · rw [hq]; simp only [hc]; exact hT
  · rw [hq]; trivial

/-- A `try` block that returns has committed tables in which the row it inserted is the
only active row of the term. -/
theorem tryBlock_rows (g : GreedyScheduler) (semester : String) (year : Int)
    (timetableName : String) :
    Triple (fun _ => True) (tryBlock storeClient g semester year timetableName)
      (fun r e => OnlyActive timetableName semester year r.timetableId
        e.store.committed.timetables)
      (fun _ => True) := by
  unfold tryBlock
  refine triple_bind store_begin_working fun _ => ?_
  refine triple_bind (store_insertTimetable_working timetableName semester year)
    fun timetableId => ?_
  refine triple_bind (store_deactivate_working timetableName semester year timetableId)
    fun _ => ?_
  refine triple_bind (store_other_working _ _ (Or.inr (Or.inr (Or.inl ⟨_, _, rfl⟩))))
    fun courses => ?_
  refine triple_bind (store_other_working _ _ (Or.inl rfl)) fun faculty => ?_
  refine triple_bind (store_other_working _ _ (Or.inr (Or.inl rfl))) fun rooms => ?_
  refine triple_bind
    (Q := fun _ => Working (OnlyActive timetableName semester year timetableId))
    (fun e he => he) fun _ => ?_
  refine triple_bind (store_insertAll_working _ _) fun _ => ?_
  refine triple_bind (store_commit_working _) fun _ => ?_
  intro e he
  exact he

/-- Claim C3: single active timetable. For every state of the store and every
(semester, year, name), after a run of `generateTimetable` that succeeds, the committed
rows of `timetables` with that (semester, year) and `is_active = true` are exactly one
row, and it is the row the run inserted: its id is the returned `timetableId` and it
carries the given name. -/
theorem C3_single_active_timetable (g : GreedyScheduler) (semester : String) (year : Int)
    (timetableName : String) (e : Exec Store) (r : Result)
    (hok : (generateTimetable storeClient g semester year timetableName e).1 = .ok r) :
    activeFor semester year
      (generateTimetable storeClient g semester year timetableName e).2.store.committed.timetables
      = [{ id := r.timetableId, name := timetableName, semester := semester, year := year,
           is_active := true }] := by
  have ht := tryBlock_rows g semester year timetableName e trivial
  unfold generateTimetable at hok ⊢
  rcases hb : tryBlock storeClient g semester year timetableName e with ⟨err | r', e'⟩
  · rw [hb] at hok
    simp only at hok
    rcases hq : query storeClient Stmt.rollback e' with ⟨_ | _, e''⟩ <;>
      rw [hq] at hok <;> simp at hok
  · rw [hb] at ht hok
    simp only [Except.ok.injEq] at hok
    subst hok
    exact ht

/-! ## A run in which nothing is rejected -/

theorem triple_assume {σ α : Type} {φ : Prop} {P : Exec σ → Prop} {m : DbM σ α}
    {Q : α → Exec σ → Prop} {E : Exec σ → Prop} (h : φ → Triple P m Q E) :
    Triple (fun e => φ ∧ P e) m Q E :=
  fun e he => h he.1 e he.2

theorem store_data_resolves (s : Stmt) (hs : s.isData = true) (e : Exec Store) (w : Tables)
    (hw : e.store.txn = Txn.active w) (hf : ∀ n, e.store.fault n = false)
    (r : s.Rows) (t : Tables) (happ : w.apply e.store.nextId s = .ok (r, t)) :
    ∃ e', query storeClient s e = (.ok r, e') ∧ e'.store.txn = Txn.active t ∧
      ∀ n, e'.store.fault n = false := by
  unfold query
  simp only [storeClient]
  rw [Store.query_active s hs e.store w hw]
  simp only [hf, happ]
  exact ⟨_, rfl, rfl, hf⟩

theorem store_begin_resolves (db : Store) :
    Triple
      (fun e => e.store.txn = Txn.idle ∧ (∀ n, e.store.fault n = false) ∧
        e.store.nextId = db.nextId ∧ e.store.committed = db.committed)
      (query storeClient Stmt.begin)
      (fun _ e => (∀ n, e.store.fault n = false) ∧ e.store.nextId = db.nextId ∧
        e.store.txn = Txn.active db.committed)
      (fun _ => False) := by
  rintro e ⟨hidle, hf, hn, hc⟩
  unfold query
  simp only [storeClient, Store.query, hf, hidle]
  exact ⟨hf, by simp [hn, Stmt.bump], by simp [hc]⟩

theorem store_insertTimetable_resolves (db : Store) (name semester : String) (year : Int)
    (hfresh : ∀ r ∈ db.committed.timetables, r.id ≠ db.nextId) :
    Triple
      (fun e => (∀ n, e.store.fault n = false) ∧ e.store.nextId = db.nextId ∧
        e.store.txn = Txn.active db.committed)
      (query storeClient (Stmt.insertTimetable name semester year true))
      (fun n e => n = db.nextId ∧ Reads db e)
      (fun _ => False) := by
  rintro e ⟨hf, hn, hw⟩
  have hany : ¬ (db.committed.timetables.any fun r => r.id == db.nextId) = true := by
    intro h
    obtain ⟨r, hr, hid⟩ := List.any_eq_true.1 h
    exact hfresh r hr (by simpa using hid)
  obtain ⟨e', hq, ht, hf'⟩ := store_data_resolves
    (Stmt.insertTimetable name semester year true) rfl e db.committed hw hf db.nextId _
    (by rw [hn]; simp only [Tables.apply]; rw [if_neg hany])
  rw [hq]
  exact ⟨rfl, hf', _, ht, rfl, rfl, rfl⟩

theorem store_deactivate_resolves (db : Store) (semester : String) (year : Int) (n : Nat) :
    Triple (Reads db) (query storeClient (Stmt.deactivateOthers semester year n))
      (fun _ => Reads db) (fun _ => False) := by
  rintro e ⟨hf, w, hw, h1, h2, h3⟩
  obtain ⟨e', hq, ht, hf'⟩ := store_data_resolves
    (Stmt.deactivateOthers semester year n) rfl e w hw hf () _ rfl
  rw [hq]
  exact ⟨hf', _, ht, h1, h2, h3⟩

theorem store_selectCourses_resolves (db : Store) (semester : String) (year : Int) :
    Triple (Reads db) (query storeClient (Stmt.selectCourses semester year))
      (fun courses e => courses = loadedCourses db semester year ∧ Reads db e)
      (fun _ => False) := by
  rintro e ⟨hf, w, hw, h1, h2, h3⟩
  obtain ⟨e', hq, ht, hf'⟩ := store_data_resolves
    (Stmt.selectCourses semester year) rfl e w hw hf _ _ rfl
  rw [hq]
  exact ⟨by simp only [loadedCourses, h1], hf', _, ht, h1, h2, h3⟩

theorem store_selectFaculty_resolves (db : Store) :
    Triple (Reads db) (query storeClient Stmt.selectFaculty)
      (fun faculty e => faculty = db.committed.faculty ∧ Reads db e)
      (fun _ => False) := by
  rintro e ⟨hf, w, hw, h1, h2, h3⟩
  obtain ⟨e', hq, ht, hf'⟩ := store_data_resolves Stmt.selectFaculty rfl e w hw hf _ _ rfl
  rw [hq]
  exact ⟨h2, hf', _, ht, h1, h2, h3⟩

theorem store_selectRooms_resolves (db : Store) :
    Triple (Reads db) (query storeClient Stmt.selectRooms)
      (fun rooms e => rooms = loadedRooms db ∧ Reads db e)
      (fun _ => False) := by
  rintro e ⟨hf, w, hw, h1, h2, h3⟩
  obtain ⟨e', hq, ht, hf'⟩ := store_data_resolves Stmt.selectRooms rfl e w hw hf _ _ rfl
  rw [hq]
  exact ⟨by simp only [loadedRooms, h3], hf', _, ht, h1, h2, h3⟩

theorem store_insertAll_resolves (db : Store) (as : List Assignment) :
    Triple (Reads db) (insertAll storeClient as) (fun _ => Reads db) (fun _ => False) := by
  induction as with
  | nil => intro e he; exact he
  | cons a rest ih =>
    refine triple_bind ?_ (fun _ => ih)
    rintro e ⟨hf, w, hw, h1, h2, h3⟩
    obtain ⟨e', hq, ht, hf'⟩ := store_data_resolves (Stmt.insertSlot a) rfl e w hw hf () _ rfl
    rw [hq]
    exact ⟨hf', _, ht, h1, h2, h3⟩

theorem store_commit_resolves (db : Store) :
    Triple (Reads db) (query storeClient Stmt.commit) (fun _ _ => True) (fun _ => False) := by
  rintro e ⟨hf, w, hw, -⟩
  unfold query
  simp only [storeClient, Store.query, hf, hw]
  trivial

/-- Against a store with no transaction open, no fault and a sequence value not yet used
as an id, the `try` block returns, with the id from the sequence and the number of
assignments the loop emits for the rows it loaded. -/
theorem tryBlock_resolves (g : GreedyScheduler) (semester : String) (year : Int)
    (timetableName : String) (db : Store)
    (hfresh : ∀ r ∈ db.committed.timetables, r.id ≠ db.nextId) :
    Triple
      (fun e => e.store.txn = Txn.idle ∧ (∀ n, e.store.fault n = false) ∧
        e.store.nextId = db.nextId ∧ e.store.committed = db.committed)
      (tryBlock storeClient g semester year timetableName)
      (fun r _ => r = resultFor g db semester year) (fun _ => False) := by
  unfold tryBlock
  refine triple_bind (store_begin_resolves db) fun _ => ?_
  refine triple_bind (store_insertTimetable_resolves db timetableName semester year hfresh)
    fun timetableId => ?_
  refine triple_assume fun hid => ?_
  subst hid
  refine triple_bind (store_deactivate_resolves db semester year _) fun _ => ?_
  refine triple_bind (store_selectCourses_resolves db semester year) fun courses => ?_
  refine triple_assume fun hcourses => ?_
  subst hcourses
  refine triple_bind (store_selectFaculty_resolves db) fun faculty => ?_
  refine triple_assume fun hfaculty => ?_
  subst hfaculty
  refine triple_bind (store_selectRooms_resolves db) fun rooms => ?_
  refine triple_assume fun hrooms => ?_
  subst hrooms
  refine triple_bind (Q := fun _ => Reads db) (fun e he => he) fun _ => ?_
  refine triple_bind (store_insertAll_resolves db _) fun _ => ?_
  refine triple_bind (store_commit_resolves db) fun _ => ?_
  intro e _
  rfl

/-- A run against a store with no transaction open, no fault and a fresh sequence value
resolves. -/
theorem generateTimetable_store_ok (g : GreedyScheduler) (semester : String) (year : Int)
    (timetableName : String) (db : Store) (hidle : db.txn = Txn.idle)
    (hfault : ∀ n, db.fault n = false)
    (hfresh : ∀ r ∈ db.committed.timetables, r.id ≠ db.nextId) :
    (generateTimetable storeClient g semester year timetableName (Exec.start db)).1
      = .ok (resultFor g db semester year) := by
  have ht := tryBlock_resolves g semester year timetableName db hfresh (Exec.start db)
    ⟨hidle, hfault, rfl, rfl⟩
  unfold generateTimetable
  rcases hb : tryBlock storeClient g semester year timetableName (Exec.start db) with
    ⟨err | r, e'⟩
  · rw [hb] at ht
    exact absurd ht id
  · rw [hb] at ht
    simp only [ht]

/-- Witness of C3: a run for the sample term against the healthy store, which holds an
older active timetable of that term. -/
theorem C3_single_active_timetable_witness :
    (generateTimetable storeClient GreedyScheduler.constructor "Fall" 2024 "Plan"
        (Exec.start healthyStore)).1
      = .ok (resultFor GreedyScheduler.constructor healthyStore "Fall" 2024) ∧
    activeFor "Fall" 2024
      (generateTimetable storeClient GreedyScheduler.constructor "Fall" 2024 "Plan"
        (Exec.start healthyStore)).2.store.committed.timetables
      = [{ id := (resultFor GreedyScheduler.constructor healthyStore "Fall" 2024).timetableId,
           name := "Plan", semester := "Fall", year := 2024, is_active := true }] :=
  ⟨generateTimetable_store_ok GreedyScheduler.constructor "Fall" 2024 "Plan" healthyStore rfl
      (fun _ => rfl) (by decide),
   C3_single_active_timetable GreedyScheduler.constructor "Fall" 2024 "Plan"
      (Exec.start healthyStore) (resultFor GreedyScheduler.constructor healthyStore "Fall" 2024)
      (generateTimetable_store_ok GreedyScheduler.constructor "Fall" 2024 "Plan" healthyStore rfl
        (fun _ => rfl) (by decide))⟩

/-- The grid of the constructor, in scan order: Monday 09:00 first, Friday 17:00 last. -/
theorem cells_constructor :
    (cells GreedyScheduler.constructor).map (fun c => (c.1, c.2.start))
      = [(1, "09:00"), (1, "10:00"), (1, "11:00"), (1, "12:00"), (1, "14:00"), (1, "15:00"),
         (1, "16:00"), (1, "17:00"),
         (2, "09:00"), (2, "10:00"), (2, "11:00"), (2, "12:00"), (2, "14:00"), (2, "15:00"),
         (2, "16:00"), (2, "17:00"),
         (3, "09:00"), (3, "10:00"), (3, "11:00"), (3, "12:00"), (3, "14:00"), (3, "15:00"),
         (3, "16:00"), (3, "17:00"),
         (4, "09:00"), (4, "10:00"), (4, "11:00"), (4, "12:00"), (4, "14:00"), (4, "15:00"),
         (4, "16:00"), (4, "17:00"),
         (5, "09:00"), (5, "10:00"), (5, "11:00"), (5, "12:00"), (5, "14:00"), (5, "15:00"),
         (5, "16:00"), (5, "17:00")] := by
  rfl

/-! ## Warnings -/

theorem dbm_bind_assoc {σ α β γ : Type} (m : DbM σ α) (f : α → DbM σ β) (h : β → DbM σ γ) :
    (m >>= f) >>= h = m >>= fun a => f a >>= h := by
  funext e
  show DbM.bind (DbM.bind m f) h e = DbM.bind m (fun a => DbM.bind (f a) h) e
  simp only [DbM.bind]
  rcases m e with ⟨err | a, e'⟩ <;> rfl

theorem dbm_pure_bind {σ α β : Type} (a : α) (f : α → DbM σ β) :
    (pure a : DbM σ α) >>= f = f a := by
  funext e
  rfl

/-- The `try` block is its first six statements followed by the rest. -/
theorem tryBlock_eq {σ : Type} (c : Client σ) (g : GreedyScheduler) (semester : String)
    (year : Int) (timetableName : String) :
    tryBlock c g semester year timetableName
      = loadPhase c semester year timetableName >>= afterLoad c g := by
  unfold tryBlock loadPhase afterLoad
  simp only [dbm_bind_assoc, dbm_pure_bind]
  rfl

/-- The warnings of the course loop are the owed ones. -/
theorem forCourses_warnings (g : GreedyScheduler) (timetableId : Nat) (faculty : List Faculty)
    (rooms : List Room) (courses : List Course) (st : RunState) :
    (forCourses g timetableId faculty rooms st courses).warnings
      = st.warnings ++ owedWarnings g timetableId faculty rooms st courses := by
  induction courses generalizing st with
  | nil => simp [forCourses, owedWarnings]
  | cons c rest ih =>
    have h := ih (scheduleCourse g timetableId faculty rooms st c)
    simp only [forCourses, List.foldl_cons] at h ⊢
    rw [h]
    obtain ⟨-, -, -, -, h5⟩ := whileLoop_facts g timetableId faculty rooms c 0 st
    rcases h5 with ⟨hlt, hw, -⟩ | ⟨hge, hw⟩
    · simp only [owedWarnings, if_pos hlt, scheduleCourse, hw, List.append_assoc]
    · simp only [owedWarnings, if_neg hge, scheduleCourse, hw, List.nil_append]

theorem assignLoop_warnings (g : GreedyScheduler) (timetableId : Nat) (courses : List Course)
    (faculty : List Faculty) (rooms : List Room) :
    (assignLoop g timetableId courses faculty rooms).warnings
      = owedWarnings g timetableId faculty rooms RunState.init courses := by
  have := forCourses_warnings g timetableId faculty rooms courses RunState.init
  simpa [assignLoop, RunState.init] using this

theorem query_keeps {σ : Type} (c : Client σ) (s : Stmt) (k : List String)
    (l0 : List (Stmt × Bool)) :
    Triple (Keeps k l0) (query c s) (fun _ => Keeps k l0) (Keeps k l0) := by
  rintro e ⟨hk, new, hl⟩
  rcases query_log c s e with ⟨r, st, -, h⟩ | ⟨err, st, -, h⟩
  · rw [h]; exact ⟨hk, new ++ [(s, true)], by simp [hl]⟩
  · rw [h]; exact ⟨hk, new ++ [(s, false)], by simp [hl]⟩

/-- The first six statements leave the console alone. -/
theorem loadPhase_keeps {σ : Type} (c : Client σ) (semester : String) (year : Int)
    (timetableName : String) (k : List String) (l0 : List (Stmt × Bool)) :
    Triple (Keeps k l0) (loadPhase c semester year timetableName)
      (fun _ => Keeps k l0) (Keeps k l0) := by
  unfold loadPhase
  refine triple_bind (query_keeps c _ k l0) fun _ => ?_
  refine triple_bind (query_keeps c _ k l0) fun timetableId => ?_
  refine triple_bind (query_keeps c _ k l0) fun _ => ?_
  refine triple_bind (query_keeps c _ k l0) fun courses => ?_
  refine triple_bind (query_keeps c _ k l0) fun faculty => ?_
  refine triple_bind (query_keeps c _ k l0) fun rooms => ?_
  intro e he
  exact he

theorem query_late {σ : Type} (c : Client σ) (s : Stmt) (k : List String)
    (l0 : List (Stmt × Bool)) (hs : s = Stmt.commit ∨ ∃ a, s = Stmt.insertSlot a) :
    Triple (Keeps k l0) (query c s) (fun _ => Keeps k l0) (StoppedLate k l0) := by
  rintro e ⟨hk, new, hl⟩
  rcases query_log c s e with ⟨r, st, -, h⟩ | ⟨err, st, -, h⟩
  · rw [h]; exact ⟨hk, new ++ [(s, true)], by simp [hl]⟩
  · rw [h]; exact ⟨hk, new, s, by simp [hl], hs⟩

theorem insertAll_late {σ : Type} (c : Client σ) (as : List Assignment) (k : List String)
    (l0 : List (Stmt × Bool)) :
    Triple (Keeps k l0) (insertAll c as) (fun _ => Keeps k l0) (StoppedLate k l0) := by
  induction as with
  | nil => intro e he; exact he
  | cons a rest ih =>
    exact triple_bind (query_late c _ k l0 (Or.inr ⟨a, rfl⟩)) (fun _ => ih)

/-- From the assignment loop on: the warnings of the loop reach the console, and the
block throws only at a rejected insert of an assignment or a rejected `COMMIT`. -/
theorem afterLoad_console {σ : Type} (c : Client σ) (g : GreedyScheduler)
    (loaded : Nat × List Course × List Faculty × List Room) (k : List String)
    (l0 : List (Stmt × Bool)) :
    Triple (Keeps k l0) (afterLoad c g loaded)
      (fun _ => Keeps
        (k ++ (assignLoop g loaded.1 loaded.2.1 loaded.2.2.1 loaded.2.2.2).warnings) l0)
      (StoppedLate
        (k ++ (assignLoop g loaded.1 loaded.2.1 loaded.2.2.1 loaded.2.2.2).warnings) l0) := by
  unfold afterLoad
  refine triple_bind
    (Q := fun _ => Keeps
      (k ++ (assignLoop g loaded.1 loaded.2.1 loaded.2.2.1 loaded.2.2.2).warnings) l0) ?_
    fun _ => ?_
  · rintro e ⟨hk, new, hl⟩
    exact ⟨by simp [warnAll, hk], new, hl⟩
  refine triple_bind (insertAll_late c _ _ l0) fun _ => ?_
  refine triple_bind (query_late c _ _ l0 (Or.inl rfl)) fun _ => ?_
  intro e he
  exact he

theorem rollback_console {σ : Type} (c : Client σ) (e : Exec σ) :
    (query c Stmt.rollback e).2.console = e.console ∧
    ∃ b, (query c Stmt.rollback e).2.log = e.log ++ [(Stmt.rollback, b)] := by
  rcases query_log c Stmt.rollback e with ⟨r, st, -, h⟩ | ⟨err, st, -, h⟩
  · rw [h]; exact ⟨rfl, true, rfl⟩
  · rw [h]; exact ⟨rfl, false, rfl⟩

/-- A run whose first six statements do not all resolve reports no warning. -/
theorem generateTimetable_console_early {σ : Type} (c : Client σ) (g : GreedyScheduler)
    (semester : String) (year : Int) (timetableName : String) (e e1 : Exec σ) (err : String)
    (hload : loadPhase c semester year timetableName e = (.error err, e1)) :
    (generateTimetable c g semester year timetableName e).2.console = e.console := by
  have hk := loadPhase_keeps c semester year timetableName e.console e.log e
    ⟨rfl, [], by simp⟩
  rw [hload] at hk
  have ht : tryBlock c g semester year timetableName e = (.error err, e1) := by
    rw [tryBlock_eq]
    show DbM.bind (loadPhase c semester year timetableName) (afterLoad c g) e = _
    simp only [DbM.bind, hload]
  unfold generateTimetable
  simp only [ht]
  have hr := (rollback_console c e1).1
  rcases hq : query c Stmt.rollback e1 with ⟨_ | _, e2⟩ <;>
    (rw [hq] at hr; simp only at hr ⊢; rw [hr]; exact hk.1)

/-- A run whose first six statements resolve reports exactly the warnings of the loop on
the loaded rows, and fails only at a rejected insert of an assignment or `COMMIT`. -/
theorem generateTimetable_console_late {σ : Type} (c : Client σ) (g : GreedyScheduler)
    (semester : String) (year : Int) (timetableName : String) (e e1 : Exec σ)
    (loaded : Nat × List Course × List Faculty × List Room)
    (hload : loadPhase c semester year timetableName e = (.ok loaded, e1)) :
    (generateTimetable c g semester year timetableName e).2.console
      = e.console ++ (assignLoop g loaded.1 loaded.2.1 loaded.2.2.1 loaded.2.2.2).warnings ∧
    ((∃ r, (generateTimetable c g semester year timetableName e).1 = .ok r) ∨
      (∃ s, (s, false) ∈
          (generateTimetable c g semester year timetableName e).2.log.drop e.log.length ∧
        (s = Stmt.commit ∨ ∃ a, s = Stmt.insertSlot a))) := by
  have hk := loadPhase_keeps c semester year timetableName e.console e.log e
    ⟨rfl, [], by simp⟩
  rw [hload] at hk
  have ha := afterLoad_console c g loaded e.console e.log e1 hk
  have ht : tryBlock c g semester year timetableName e = afterLoad c g loaded e1 := by
    rw [tryBlock_eq]
    show DbM.bind (loadPhase c semester year timetableName) (afterLoad c g) e = _
    simp only [DbM.bind, hload]
  unfold generateTimetable
  rw [ht]
  rcases hb : afterLoad c g loaded e1 with ⟨err | r, e2⟩
  · rw [hb] at ha
    obtain ⟨hcon, new, s, hl, hs⟩ := ha
    obtain ⟨hrc, b, hrl⟩ := rollback_console c e2
    have hfinal : ((match query c Stmt.rollback e2 with
        | (.ok _, e3) => ((.error err : Except String Result), e3)
        | (.error err2, e3) => (.error err2, e3)) : Except String Result × Exec σ).2
        = (query c Stmt.rollback e2).2 := by
      rcases query c Stmt.rollback e2 with ⟨_ | _, e3⟩ <;> rfl
    simp only [hfinal, hrc, hcon, true_and]
    refine Or.inr ⟨s, ?_, hs⟩
    rw [hrl, hl, List.append_assoc, List.append_assoc, List.drop_left]
    simp
  · rw [hb] at ha
    exact ⟨ha.1, Or.inl ⟨r, rfl⟩⟩

/-- Against a store with no transaction open, no fault and a fresh sequence value, the
first six statements resolve with the id from the sequence and the rows of the store. -/
theorem loadPhase_store_ok (semester : String) (year : Int) (timetableName : String)
    (db : Store) (hidle : db.txn = Txn.idle) (hfault : ∀ n, db.fault n = false)
    (hfresh : ∀ r ∈ db.committed.timetables, r.id ≠ db.nextId) :
    ∃ e1, loadPhase storeClient semester year timetableName (Exec.start db)
      = (.ok (db.nextId, loadedCourses db semester year, db.committed.faculty, loadedRooms db),
          e1) := by
  have ht : Triple
      (fun e => e.store.txn = Txn.idle ∧ (∀ n, e.store.fault n = false) ∧
        e.store.nextId = db.nextId ∧ e.store.committed = db.committed)
      (loadPhase storeClient semester year timetableName)
      (fun loaded _ => loaded
        = (db.nextId, loadedCourses db semester year, db.committed.faculty, loadedRooms db))
      (fun _ => False) := by
    unfold loadPhase
    refine triple_bind (store_begin_resolves db) fun _ => ?_
    refine triple_bind (store_insertTimetable_resolves db timetableName semester year hfresh)
      fun timetableId => ?_
    refine triple_assume fun hid => ?_
    subst hid
    refine triple_bind (store_deactivate_resolves db semester year _) fun _ => ?_
    refine triple_bind (store_selectCourses_resolves db semester year) fun courses => ?_
    refine triple_assume fun hcourses => ?_
    subst hcourses
    refine triple_bind (store_selectFaculty_resolves db) fun faculty => ?_
    refine triple_assume fun hfaculty => ?_
    subst hfaculty
    refine triple_bind (store_selectRooms_resolves db) fun rooms => ?_
    refine triple_assume fun hrooms => ?_
    subst hrooms
    intro e _
    rfl
  have h := ht (Exec.start db) ⟨hidle, hfault, rfl, rfl⟩
  rcases hb : loadPhase storeClient semester year timetableName (Exec.start db) with
    ⟨err | loaded, e1⟩
  · rw [hb] at h
    exact absurd h id
  · rw [hb] at h
    simp only at h
    exact ⟨e1, by rw [h]⟩

/-- Claim C7: the warning. For every course and every state in which its `while` loop
starts: the loop appends `scheduledCredits` assignments, all carrying the id of the
course; it appends the warning for the course exactly when `scheduledCredits` ends
strictly below `credits`, and appends nothing to the warnings otherwise; with
`credits = 0` the loop changes nothing (no assignment, no warning). Over a whole course
list the warnings of the loop are the owed ones: one per course that ends short, in
order, none for the others. And in a run of `generateTimetable`, for every client: if the
first six statements do not all resolve, nothing is written to the console; if they
resolve with the timetable id and the rows, the console receives exactly the owed
warnings for those rows, and the run then either resolves or has a rejected insert of an
assignment or a rejected `COMMIT` in its log, so that a warning never makes it fail. -/
theorem C7_warning_iff_short (g : GreedyScheduler) (timetableId : Nat)
    (faculty : List Faculty) (rooms : List Room) (course : Course) (st : RunState) :
    (∃ new, (whileLoop g timetableId faculty rooms course 0 st).2.assignments
        = st.assignments ++ new ∧
      (new.length : Int) = (whileLoop g timetableId faculty rooms course 0 st).1 ∧
      ∀ a ∈ new, a.courseId = course.id) ∧
    ((whileLoop g timetableId faculty rooms course 0 st).2.warnings
        = st.warnings ++ [warningFor course] ∨
      (whileLoop g timetableId faculty rooms course 0 st).2.warnings = st.warnings) ∧
    ((whileLoop g timetableId faculty rooms course 0 st).2.warnings
        = st.warnings ++ [warningFor course] ↔
      (whileLoop g timetableId faculty rooms course 0 st).1 < course.credits) ∧
    (whileLoop g timetableId faculty rooms { course with credits := 0 } 0 st = (0, st)) ∧
    (∀ courses : List Course,
      (assignLoop g timetableId courses faculty rooms).warnings
        = owedWarnings g timetableId faculty rooms RunState.init courses) ∧
    (∀ (σ : Type) (c : Client σ) (semester : String) (year : Int) (timetableName : String)
      (e : Exec σ),
      (∀ err e1, loadPhase c semester year timetableName e = (.error err, e1) →
        (generateTimetable c g semester year timetableName e).2.console = e.console) ∧
      (∀ loaded e1, loadPhase c semester year timetableName e = (.ok loaded, e1) →
        (generateTimetable c g semester year timetableName e).2.console
          = e.console ++
            owedWarnings g loaded.1 loaded.2.2.1 loaded.2.2.2 RunState.init loaded.2.1 ∧
        ((∃ r, (generateTimetable c g semester year timetableName e).1 = .ok r) ∨
          (∃ s, (s, false) ∈
              (generateTimetable c g semester year timetableName e).2.log.drop e.log.length ∧
            (s = Stmt.commit ∨ ∃ a, s = Stmt.insertSlot a))))) := by
  obtain ⟨-, -, ⟨new, hn1, hn2, hn3⟩, -, h5⟩ :=
    whileLoop_facts g timetableId faculty rooms course 0 st
  refine ⟨⟨new, hn1, by simpa using hn2, fun a ha => (hn3 a ha).1⟩, ?_, ?_, ?_, ?_, ?_⟩
  · rcases h5 with ⟨-, hw, -⟩ | ⟨-, hw⟩
    · exact Or.inl hw
    · exact Or.inr hw
  · rcases h5 with ⟨hlt, hw, -⟩ | ⟨hge, hw⟩
    · exact ⟨fun _ => hlt, fun _ => hw⟩
    · constructor
      · intro h
        rw [hw] at h
        have := congrArg List.length h
        simp at this
      · intro h
        exact absurd h hge
  · exact whileLoop_done _ _ _ _ _ _ _ (by simp)
  · intro courses
    exact assignLoop_warnings g timetableId courses faculty rooms
  · intro σ c semester year timetableName e
    refine ⟨fun err e1 h =>
      generateTimetable_console_early c g semester year timetableName e e1 err h, ?_⟩
    intro loaded e1 h
    have := generateTimetable_console_late c g semester year timetableName e e1 loaded h
    rw [assignLoop_warnings] at this
    exact this

theorem shortStore_owed :
    owedWarnings GreedyScheduler.constructor 1 oneTeacher (loadedRooms shortStore)
        RunState.init (loadedCourses shortStore "Fall" 2024)
      = ["Could not schedule all credits for course Algebra"] := by
  have h1 : loadedCourses shortStore "Fall" 2024 = oneCourse := by decide
  have h2 : loadedRooms shortStore = oneRoom := by decide
  rw [h1, h2, ← assignLoop_warnings]
  exact warnings_of_fuel 1 _ _ _ _ _ _ (by decide) (by decide)

/-- Witness of C7: a run against a store whose only course of the term has no eligible
teacher resolves its loads, and its console receives the one owed warning. -/
theorem C7_warning_iff_short_witness :
    owedWarnings GreedyScheduler.constructor 1 oneTeacher (loadedRooms shortStore)
        RunState.init (loadedCourses shortStore "Fall" 2024)
      = ["Could not schedule all credits for course Algebra"] ∧
    ((generateTimetable storeClient GreedyScheduler.constructor "Fall" 2024 "Plan"
        (Exec.start shortStore)).2.console
      = (Exec.start shortStore).console ++
          owedWarnings GreedyScheduler.constructor 1 oneTeacher (loadedRooms shortStore)
            RunState.init (loadedCourses shortStore "Fall" 2024) ∧
      ((∃ r, (generateTimetable storeClient GreedyScheduler.constructor "Fall" 2024 "Plan"
          (Exec.start shortStore)).1 = .ok r) ∨
        (∃ s, (s, false) ∈
            (generateTimetable storeClient GreedyScheduler.constructor "Fall" 2024 "Plan"
              (Exec.start shortStore)).2.log.drop (Exec.start shortStore).log.length ∧
          (s = Stmt.commit ∨ ∃ a, s = Stmt.insertSlot a)))) :=
  ⟨shortStore_owed,
   Exists.elim
    (loadPhase_store_ok "Fall" 2024 "Plan" shortStore rfl (fun _ => rfl) (by decide))
    fun e1 h =>
      ((C7_warning_iff_short GreedyScheduler.constructor 1 oneTeacher oneRoom
          (sampleCourse 1 "Algebra" 5 1) RunState.init).2.2.2.2.2
        Store storeClient "Fall" 2024 "Plan" (Exec.start shortStore)).2
        (1, loadedCourses shortStore "Fall" 2024, oneTeacher, loadedRooms shortStore) e1 h⟩

end Scheduler
